import Mathlib

/-!
# smartstore: tiering and routing orchestration

A shallow embedding of the Go packages `internal/storage/objectstore`,
`internal/metadata` and `internal/storage/smart`.

Conventions of the embedding

* `int64` values are `Int`; none of the modelled arithmetic can overflow
  (the only arithmetic is the comparison of a size with the threshold).
* A Go `map[string]V` is an association list `GoMap V` with at most the
  first binding of a key visible; `set` overwrites in place.
* An `io.Reader` is a `Body`: the bytes it delivers and the error, if any,
  that ends the stream instead of `io.EOF`.
* Interfaces (`ObjectStorage`, `Repository`, `ObjectRoute`) and the Redis
  client wrapper are records of functions over an explicit collaborator
  state, so that a theorem quantified over them holds for every behaviour
  of the collaborator.  Every call made to a collaborator is also appended
  to a call log, in program order.
* `time.Now()` is an explicit argument `now`; the zero `time.Time` is `0`.
* `*ObjectRecord` values are copied (value semantics); the service never
  aliases a record after handing it to the repository.
* One request runs at a time: the mutexes of the registry and of the in-memory
  repository, `context.Context` and cancellation are not modelled.
-/

namespace SmartStore

/-! ## Basic types -/

abbrev Bytes := List UInt8

abbrev Time := Nat

/-- Go `map[string]V`. -/
abbrev GoMap (V : Type) := List (String × V)

/-- Go `v, ok := m[k]`. -/
def GoMap.get {V : Type} : GoMap V → String → Option V
  | [], _ => none
  | (k', v) :: t, k => if k' = k then some v else GoMap.get t k

/-- Go `m[k] = v`. -/
def GoMap.set {V : Type} : GoMap V → String → V → GoMap V
  | [], k, v => [(k, v)]
  | (k', v') :: t, k, v => if k' = k then (k, v) :: t else (k', v') :: GoMap.set t k v

/-! ## objectstore/router.go, objectstore/interface.go: data -/

abbrev ProviderType := String

structure RouteKey where
  Env : String
  LogicalRegion : String
  Bucket : String
  StorageClass : String
deriving DecidableEq, Repr

structure RouteResult where
  ProviderName : String
  ProviderType : ProviderType
  ProviderRegion : String
  ProviderBucket : String
deriving DecidableEq, Repr

structure RouteResultWithKey where
  Key : RouteKey
  Result : RouteResult
deriving DecidableEq, Repr

structure ObjectLocation where
  ProviderType : ProviderType
  ProviderRegion : String
  ProviderBucket : String
  PhysicalKey : String
deriving DecidableEq, Repr

structure PutOptions where
  ContentType : String
  Metadata : List (String × String)
  StorageClass : String
deriving DecidableEq, Repr

/-- Go `error` values that the modelled code creates or passes on. -/
inductive Error where
  /-- The sentinel `metadata.ErrNotFound`. -/
  | ErrNotFound
  /-- The value of `fmt.Errorf("no route for %+v", key)`. -/
  | noRoute (key : RouteKey)
  /-- The value of `fmt.Errorf("no backend for provider %s", name)`. -/
  | noBackend (name : String)
  /-- Any other error, raised by a collaborator. -/
  | other (msg : String)
deriving DecidableEq, Repr

/-- An `io.Reader`: the bytes it yields, then `err` (or `io.EOF` when `none`). -/
structure Body where
  data : Bytes
  err : Option Error
deriving DecidableEq, Repr

instance instDecidableEqExcept {ε α : Type} [DecidableEq ε] [DecidableEq α] :
    DecidableEq (Except ε α)
  | .ok a, .ok b => if h : a = b then isTrue (by rw [h]) else isFalse (fun e => h (by cases e; rfl))
  | .error a, .error b =>
    if h : a = b then isTrue (by rw [h]) else isFalse (fun e => h (by cases e; rfl))
  | .ok _, .error _ => isFalse (fun e => by cases e)
  | .error _, .ok _ => isFalse (fun e => by cases e)

/-- Go `bytes.NewReader(data)`. -/
def Body.ofBytes (data : Bytes) : Body := ⟨data, none⟩

/-! ## config/config.go: data -/

structure ProviderConfig where
  Name : String
  Type_ : ProviderType
  Region : String
  Endpoint : String
  AccessKey : String
  SecretKey : String
  UseSSL : Bool
  AccountID : String
  ProjectID : String
  CredentialRef : String
deriving DecidableEq, Repr

structure RouteRule where
  Env : String
  LogicalRegion : String
  Bucket : String
  StorageClass : String
  ProviderName : String
  ProviderBucket : String
deriving DecidableEq, Repr

structure ObjectStorageConfig where
  DefaultStorageClass : String
  Routes : List RouteRule
  Providers : List ProviderConfig
deriving DecidableEq, Repr

/-! ## metadata/repository.go -/

abbrev StoreBackend := String

def StoreRedisOnly : StoreBackend := "REDIS_ONLY"
def StoreObjectOnly : StoreBackend := "OBJECT_ONLY"
def StoreRedisObject : StoreBackend := "REDIS_OBJECT"

structure ObjectRecord where
  Env : String
  LogicalRegion : String
  Bucket : String
  ObjectKey : String
  SizeBytes : Int
  ContentType : String
  StorageClass : String
  StoreBackend : StoreBackend
  ProviderType : String
  ProviderRegion : String
  ProviderBucket : String
  PhysicalKey : String
  ETag : String
  Version : Int
  Status : String
  CreatedAt : Time
  UpdatedAt : Time
deriving DecidableEq, Repr

/-- Go interface `metadata.Repository` over a store state `μ`. -/
structure Repository (μ : Type) where
  GetObject : μ → String → String → String → String → Except Error ObjectRecord × μ
  PutObject : μ → Option ObjectRecord → Option Error × μ
  MarkDeleted : μ → String → String → String → String → Option Error × μ

/-! ## metadata/memory_repository.go -/

structure InMemoryRepository where
  data : GoMap ObjectRecord
deriving DecidableEq, Repr

def NewInMemoryRepository : InMemoryRepository := ⟨[]⟩

def makeKey (env region bucket key : String) : String :=
  env ++ "|" ++ region ++ "|" ++ bucket ++ "|" ++ key

def InMemoryRepository.GetObject (r : InMemoryRepository) (env region bucket key : String) :
    Except Error ObjectRecord :=
  let k := makeKey env region bucket key
  match r.data.get k with
  | none => .error .ErrNotFound
  | some o => if o.Status = "DELETED" then .error .ErrNotFound else .ok o

/-- The field defaults that `PutObject` writes into the record before storing it. -/
def stamp (now : Time) (o : ObjectRecord) : ObjectRecord :=
  let o := { o with UpdatedAt := now }
  let o := if o.CreatedAt = 0 then { o with CreatedAt := now } else o
  let o := if o.Version = 0 then { o with Version := 1 } else o
  if o.Status = "" then { o with Status := "ACTIVE" } else o

def InMemoryRepository.PutObject (r : InMemoryRepository) (now : Time) :
    Option ObjectRecord → Option Error × InMemoryRepository
  | none => (some .ErrNotFound, r)
  | some o =>
    let o := stamp now o
    let k := makeKey o.Env o.LogicalRegion o.Bucket o.ObjectKey
    (none, ⟨r.data.set k o⟩)

def InMemoryRepository.MarkDeleted (r : InMemoryRepository) (now : Time)
    (env region bucket key : String) : Option Error × InMemoryRepository :=
  let k := makeKey env region bucket key
  match r.data.get k with
  | none => (some .ErrNotFound, r)
  | some o => (none, ⟨r.data.set k { o with Status := "DELETED", UpdatedAt := now }⟩)

/-- The in-memory repository as a `metadata.Repository`, with the reading of the clock
    that its calls observe. -/
def InMemoryRepository.repository (now : Time) : Repository InMemoryRepository where
  GetObject := fun r env region bucket key => (r.GetObject env region bucket key, r)
  PutObject := fun r o => r.PutObject now o
  MarkDeleted := fun r env region bucket key => r.MarkDeleted now env region bucket key

/-! ## objectstore/interface.go, registry.go, router.go: behaviour -/

/-- Go interface `objectstore.ObjectStorage` over a backend state `β`. -/
structure ObjectStorage (β : Type) where
  PutObject : β → ObjectLocation → Body → Int → PutOptions → Except Error String × β
  GetObject : β → ObjectLocation → Except Error (Body × Int × String) × β
  DeleteObject : β → ObjectLocation → Option Error × β

structure ProviderRegistry (β : Type) where
  backends : GoMap (ObjectStorage β)

def NewProviderRegistry {β : Type} : ProviderRegistry β := ⟨[]⟩

def ProviderRegistry.Register {β : Type} (r : ProviderRegistry β) (name : String)
    (backend : ObjectStorage β) : ProviderRegistry β :=
  ⟨r.backends.set name backend⟩

def ProviderRegistry.Get {β : Type} (r : ProviderRegistry β) (name : String) :
    Option (ObjectStorage β) :=
  r.backends.get name

/-- Go interface `objectstore.ObjectRoute`. -/
structure ObjectRoute where
  ResolveRoute : RouteKey → Except Error RouteResult

structure StaticRouter where
  routes : List RouteResultWithKey
deriving DecidableEq, Repr

/-- The first loop of `NewStaticRouter`: `providers[p.Name] = p` for each provider. -/
def providerMap (ps : List ProviderConfig) : GoMap ProviderConfig :=
  ps.foldl (fun m p => m.set p.Name p) []

/-- The second loop of `NewStaticRouter`, over the remaining rules. -/
def buildRoutes (providers : GoMap ProviderConfig) :
    List RouteRule → List RouteResultWithKey → List RouteResultWithKey
  | [], rs => rs
  | r :: rest, rs =>
    match providers.get r.ProviderName with
    | none => buildRoutes providers rest rs
    | some p =>
      buildRoutes providers rest
        (rs ++ [{ Key := { Env := r.Env, LogicalRegion := r.LogicalRegion,
                           Bucket := r.Bucket, StorageClass := r.StorageClass },
                  Result := { ProviderName := p.Name, ProviderType := p.Type_,
                              ProviderRegion := p.Region,
                              ProviderBucket := r.ProviderBucket } }])

def NewStaticRouter (cfg : ObjectStorageConfig) : StaticRouter :=
  ⟨buildRoutes (providerMap cfg.Providers) cfg.Routes []⟩

/-- The loop of `StaticRouter.ResolveRoute`. -/
def resolveLoop (key : RouteKey) : List RouteResultWithKey → Except Error RouteResult
  | [] => .error (.noRoute key)
  | r :: rest => if r.Key = key then .ok r.Result else resolveLoop key rest

def StaticRouter.ResolveRoute (s : StaticRouter) (key : RouteKey) : Except Error RouteResult :=
  resolveLoop key s.routes

def StaticRouter.objectRoute (s : StaticRouter) : ObjectRoute := ⟨s.ResolveRoute⟩

/-- The `RouteKey` literal that `NewStaticRouter` builds from a rule. -/
def RouteRule.key (r : RouteRule) : RouteKey :=
  { Env := r.Env, LogicalRegion := r.LogicalRegion, Bucket := r.Bucket,
    StorageClass := r.StorageClass }

/-- The `RouteResult` literal that `NewStaticRouter` builds from a rule and its provider. -/
def RouteRule.result (r : RouteRule) (p : ProviderConfig) : RouteResult :=
  { ProviderName := p.Name, ProviderType := p.Type_, ProviderRegion := p.Region,
    ProviderBucket := r.ProviderBucket }

/-- The last definition in `ps` whose name is `name`. -/
def lastProvider : List ProviderConfig → String → Option ProviderConfig
  | [], _ => none
  | p :: rest, name =>
    match lastProvider rest name with
    | some q => some q
    | none => if p.Name = name then some p else none

/-! ## cache/redis.go -/

/-- The wrapper `cache.RedisCache` over a cache state `κ`; what the Redis server answers is
    left open. -/
structure RedisCache (κ : Type) where
  GetObject : κ → String → Except Error Bytes × κ
  SetObject : κ → String → Bytes → Nat → Option Error × κ
  Del : κ → String → Option Error × κ

/-! ## storage/smart/smart_store.go -/

/-- One call made by the service to a collaborator. -/
inductive Call where
  | cacheGet (key : String)
  | cacheSet (key : String) (value : Bytes) (ttl : Nat)
  | resolveRoute (key : RouteKey)
  | registryGet (name : String)
  | backendPut (name : String) (loc : ObjectLocation) (body : Body) (size : Int)
      (opts : PutOptions)
  | backendGet (name : String) (loc : ObjectLocation)
  | metaGet (env region bucket key : String)
  | metaPut (o : ObjectRecord)
deriving DecidableEq, Repr

/-- The state of the three stateful collaborators. -/
structure World (κ μ β : Type) where
  cache : κ
  metaRepo : μ
  store : β
deriving DecidableEq

structure Service (κ μ β : Type) where
  cache : RedisCache κ
  metaRepo : Repository μ
  router : ObjectRoute
  providers : ProviderRegistry β
  smallFileThreshold : Int
  cacheTTL : Nat

/-- Go `24 * time.Hour`, in nanoseconds. -/
def defaultCacheTTL : Nat := 24 * 3600 * 1000000000

def NewService {κ μ β : Type} (cache : RedisCache κ) (repo : Repository μ) (router : ObjectRoute)
    (registry : ProviderRegistry β) : Service κ μ β :=
  { cache := cache, metaRepo := repo, router := router, providers := registry,
    smallFileThreshold := 1 * 1024 * 1024, cacheTTL := defaultCacheTTL }

structure PutRequest where
  Env : String
  LogicalRegion : String
  Bucket : String
  Key : String
  ContentType : String
  Size : Int
  Body : Body
  StorageClass : String
deriving DecidableEq, Repr

structure PutResponse where
  ETag : String
  Backend : StoreBackend
  Size : Int
deriving DecidableEq, Repr

structure GetRequest where
  Env : String
  LogicalRegion : String
  Bucket : String
  Key : String
deriving DecidableEq, Repr

structure GetResponse where
  Size : Int
  ContentType : String
  Body : Body
deriving DecidableEq, Repr

/-- What a service operation leaves behind: its return value, the collaborator states and
    the calls it made, in order. -/
structure Outcome (α κ μ β : Type) where
  result : Except Error α
  world : World κ μ β
  calls : List Call
deriving DecidableEq

/-- Go `fmt.Sprintf("obj:%s:%s:%s", env, bucket, key)`. -/
def cacheKey (env bucket key : String) : String :=
  "obj:" ++ env ++ ":" ++ bucket ++ ":" ++ key

/-- Go `fmt.Sprintf("%s/%s/%s/%s", req.Env, req.LogicalRegion, req.Bucket, req.Key)`. -/
def buildPhysicalKey (req : PutRequest) : String :=
  req.Env ++ "/" ++ req.LogicalRegion ++ "/" ++ req.Bucket ++ "/" ++ req.Key

def Service.putSmall {κ μ β : Type} (s : Service κ μ β) (w : World κ μ β) (req : PutRequest) :
    Outcome PutResponse κ μ β :=
  -- n, err := io.Copy(buf, req.Body)
  match req.Body.err with
  | some e => ⟨.error e, w, []⟩
  | none =>
    let data := req.Body.data
    let n : Int := data.length
    let ck := cacheKey req.Env req.Bucket req.Key
    -- 1. write to cache; the error is dropped
    let w := { w with cache := (s.cache.SetObject w.cache ck data s.cacheTTL).2 }
    let c1 := [Call.cacheSet ck data s.cacheTTL]
    -- 2. route to provider
    let rk : RouteKey := { Env := req.Env, LogicalRegion := req.LogicalRegion,
                           Bucket := req.Bucket, StorageClass := req.StorageClass }
    let c2 := c1 ++ [Call.resolveRoute rk]
    match s.router.ResolveRoute rk with
    | .error e => ⟨.error e, w, c2⟩
    | .ok route =>
      let c3 := c2 ++ [Call.registryGet route.ProviderName]
      match s.providers.Get route.ProviderName with
      | none => ⟨.error (.noBackend route.ProviderName), w, c3⟩
      | some backend =>
        let loc : ObjectLocation :=
          { ProviderType := route.ProviderType, ProviderRegion := route.ProviderRegion,
            ProviderBucket := route.ProviderBucket, PhysicalKey := buildPhysicalKey req }
        let opts : PutOptions :=
          { ContentType := req.ContentType, Metadata := [], StorageClass := req.StorageClass }
        let c4 := c3 ++ [Call.backendPut route.ProviderName loc (Body.ofBytes data) n opts]
        match backend.PutObject w.store loc (Body.ofBytes data) n opts with
        | (.error e, st) => ⟨.error e, { w with store := st }, c4⟩
        | (.ok etag, st) =>
          let w := { w with store := st }
          let o : ObjectRecord :=
            { Env := req.Env, LogicalRegion := req.LogicalRegion, Bucket := req.Bucket,
              ObjectKey := req.Key, SizeBytes := n, ContentType := req.ContentType,
              StorageClass := req.StorageClass, StoreBackend := StoreRedisObject,
              ProviderType := route.ProviderType, ProviderRegion := route.ProviderRegion,
              ProviderBucket := route.ProviderBucket, PhysicalKey := loc.PhysicalKey,
              ETag := etag, Version := 0, Status := "ACTIVE", CreatedAt := 0, UpdatedAt := 0 }
          let c5 := c4 ++ [Call.metaPut o]
          match s.metaRepo.PutObject w.metaRepo (some o) with
          | (some e, m) => ⟨.error e, { w with metaRepo := m }, c5⟩
          | (none, m) =>
            ⟨.ok { ETag := etag, Backend := o.StoreBackend, Size := n },
             { w with metaRepo := m }, c5⟩

def Service.putLarge {κ μ β : Type} (s : Service κ μ β) (w : World κ μ β) (req : PutRequest) :
    Outcome PutResponse κ μ β :=
  let rk : RouteKey := { Env := req.Env, LogicalRegion := req.LogicalRegion,
                         Bucket := req.Bucket, StorageClass := req.StorageClass }
  let c2 := [Call.resolveRoute rk]
  match s.router.ResolveRoute rk with
  | .error e => ⟨.error e, w, c2⟩
  | .ok route =>
    let c3 := c2 ++ [Call.registryGet route.ProviderName]
    match s.providers.Get route.ProviderName with
    | none => ⟨.error (.noBackend route.ProviderName), w, c3⟩
    | some backend =>
      let loc : ObjectLocation :=
        { ProviderType := route.ProviderType, ProviderRegion := route.ProviderRegion,
          ProviderBucket := route.ProviderBucket, PhysicalKey := buildPhysicalKey req }
      let opts : PutOptions :=
        { ContentType := req.ContentType, Metadata := [], StorageClass := req.StorageClass }
      let c4 := c3 ++ [Call.backendPut route.ProviderName loc req.Body req.Size opts]
      match backend.PutObject w.store loc req.Body req.Size opts with
      | (.error e, st) => ⟨.error e, { w with store := st }, c4⟩
      | (.ok etag, st) =>
        let w := { w with store := st }
        let o : ObjectRecord :=
          { Env := req.Env, LogicalRegion := req.LogicalRegion, Bucket := req.Bucket,
            ObjectKey := req.Key, SizeBytes := req.Size, ContentType := req.ContentType,
            StorageClass := req.StorageClass, StoreBackend := StoreObjectOnly,
            ProviderType := route.ProviderType, ProviderRegion := route.ProviderRegion,
            ProviderBucket := route.ProviderBucket, PhysicalKey := loc.PhysicalKey,
            ETag := etag, Version := 0, Status := "ACTIVE", CreatedAt := 0, UpdatedAt := 0 }
        let c5 := c4 ++ [Call.metaPut o]
        match s.metaRepo.PutObject w.metaRepo (some o) with
        | (some e, m) => ⟨.error e, { w with metaRepo := m }, c5⟩
        | (none, m) =>
          ⟨.ok { ETag := etag, Backend := o.StoreBackend, Size := req.Size },
           { w with metaRepo := m }, c5⟩

def Service.Put {κ μ β : Type} (s : Service κ μ β) (w : World κ μ β) (req : PutRequest) :
    Outcome PutResponse κ μ β :=
  let req := if req.StorageClass = "" then { req with StorageClass := "HOT" } else req
  if 0 < req.Size ∧ req.Size ≤ s.smallFileThreshold then
    s.putSmall w req
  else
    s.putLarge w req

/-- The part of `Service.Get` after the cache lookup has missed: `w` and `c1` are the
    collaborator states and the call log at that point. -/
def Service.getMiss {κ μ β : Type} (s : Service κ μ β) (w : World κ μ β) (ck : String)
    (c1 : List Call) (req : GetRequest) : Outcome GetResponse κ μ β :=
  -- 2. lookup metadata
  let c2 := c1 ++ [Call.metaGet req.Env req.LogicalRegion req.Bucket req.Key]
  match s.metaRepo.GetObject w.metaRepo req.Env req.LogicalRegion req.Bucket req.Key with
  | (.error e, m) => ⟨.error e, { w with metaRepo := m }, c2⟩
  | (.ok o, m) =>
    let w := { w with metaRepo := m }
    let routeName := o.ProviderType
    let found : Option (String × ObjectStorage β) × List Call :=
      match s.providers.Get routeName with
      | some backend => (some (routeName, backend), [Call.registryGet routeName])
      | none =>
        match s.providers.Get o.ProviderBucket with
        | some backend =>
          (some (o.ProviderBucket, backend),
           [Call.registryGet routeName, Call.registryGet o.ProviderBucket])
        | none => (none, [Call.registryGet routeName, Call.registryGet o.ProviderBucket])
    let c3 := c2 ++ found.2
    match found.1 with
    | none => ⟨.error (.noBackend routeName), w, c3⟩
    | some (name, backend) =>
      let loc : ObjectLocation :=
        { ProviderType := o.ProviderType, ProviderRegion := o.ProviderRegion,
          ProviderBucket := o.ProviderBucket, PhysicalKey := o.PhysicalKey }
      let c4 := c3 ++ [Call.backendGet name loc]
      match backend.GetObject w.store loc with
      | (.error e, st) => ⟨.error e, { w with store := st }, c4⟩
      | (.ok (body, size, contentType), st) =>
        let w := { w with store := st }
        -- 3. optionally refill cache if small
        if 0 < size ∧ size ≤ s.smallFileThreshold then
          match body.err with
          | some e => ⟨.error e, w, c4⟩
          | none =>
            let data := body.data
            let w := { w with cache := (s.cache.SetObject w.cache ck data s.cacheTTL).2 }
            ⟨.ok { Size := size, ContentType := contentType, Body := Body.ofBytes data },
             w, c4 ++ [Call.cacheSet ck data s.cacheTTL]⟩
        else
          ⟨.ok { Size := size, ContentType := contentType, Body := body }, w, c4⟩

def Service.Get {κ μ β : Type} (s : Service κ μ β) (w : World κ μ β) (req : GetRequest) :
    Outcome GetResponse κ μ β :=
  let ck := cacheKey req.Env req.Bucket req.Key
  -- 1. try cache
  let hit := s.cache.GetObject w.cache ck
  let w := { w with cache := hit.2 }
  let c1 := [Call.cacheGet ck]
  match hit.1 with
  | .ok data =>
    if 0 < data.length then
      ⟨.ok { Size := data.length, ContentType := "", Body := Body.ofBytes data }, w, c1⟩
    else s.getMiss w ck c1 req
  | .error _ => s.getMiss w ck c1 req

/-! ### Names for the values that `Put` builds -/

/-- The request after the first statement of `Put`: an empty storage class becomes `HOT`. -/
def PutRequest.defaulted (req : PutRequest) : PutRequest :=
  if req.StorageClass = "" then { req with StorageClass := "HOT" } else req

/-- The `RouteKey` literal of `putSmall` and `putLarge`. -/
def PutRequest.routeKey (req : PutRequest) : RouteKey :=
  { Env := req.Env, LogicalRegion := req.LogicalRegion, Bucket := req.Bucket,
    StorageClass := req.StorageClass }

/-- The `ObjectLocation` literal of `putSmall` and `putLarge`. -/
def PutRequest.location (req : PutRequest) (route : RouteResult) : ObjectLocation :=
  { ProviderType := route.ProviderType, ProviderRegion := route.ProviderRegion,
    ProviderBucket := route.ProviderBucket, PhysicalKey := buildPhysicalKey req }

/-- The `PutOptions` literal of `putSmall` and `putLarge`. -/
def PutRequest.options (req : PutRequest) : PutOptions :=
  { ContentType := req.ContentType, Metadata := [], StorageClass := req.StorageClass }

/-- The `ObjectRecord` literal of `putSmall` (`size` the byte count read, `mode` the
    cache-plus-backend tag) and of `putLarge` (`size` the declared size, `mode` the
    backend-only tag). -/
def PutRequest.record (req : PutRequest) (route : RouteResult) (size : Int)
    (mode : StoreBackend) (etag : String) : ObjectRecord :=
  { Env := req.Env, LogicalRegion := req.LogicalRegion, Bucket := req.Bucket,
    ObjectKey := req.Key, SizeBytes := size, ContentType := req.ContentType,
    StorageClass := req.StorageClass, StoreBackend := mode,
    ProviderType := route.ProviderType, ProviderRegion := route.ProviderRegion,
    ProviderBucket := route.ProviderBucket, PhysicalKey := buildPhysicalKey req,
    ETag := etag, Version := 0, Status := "ACTIVE", CreatedAt := 0, UpdatedAt := 0 }

/-- The state of the cache after the write of `putSmall`. -/
def Service.cacheAfterSet {κ μ β : Type} (s : Service κ μ β) (w : World κ μ β)
    (req : PutRequest) : κ :=
  (s.cache.SetObject w.cache (cacheKey req.Env req.Bucket req.Key) req.Body.data s.cacheTTL).2

/-- The cache write that `putSmall` issues. -/
def Service.cacheSetCall {κ μ β : Type} (s : Service κ μ β) (req : PutRequest) : Call :=
  Call.cacheSet (cacheKey req.Env req.Bucket req.Key) req.Body.data s.cacheTTL

/-- The test of `Put`: the declared size is positive and at most the threshold. -/
def Service.isSmall {κ μ β : Type} (s : Service κ μ β) (req : PutRequest) : Prop :=
  0 < req.Size ∧ req.Size ≤ s.smallFileThreshold

instance Service.decidableIsSmall {κ μ β : Type} (s : Service κ μ β) (req : PutRequest) :
    Decidable (s.isSmall req) := by
  unfold Service.isSmall; infer_instance

/-- The reader handed to the backend: the buffered bytes on the small path, the request
    body on the large path. -/
def Service.putBody {κ μ β : Type} (s : Service κ μ β) (req : PutRequest) : Body :=
  if s.isSmall req then Body.ofBytes req.Body.data else req.Body

/-- The size handed to the backend, stored in the record and returned: the byte count
    read on the small path, the declared size on the large path. -/
def Service.putSize {κ μ β : Type} (s : Service κ μ β) (req : PutRequest) : Int :=
  if s.isSmall req then req.Body.data.length else req.Size

/-- The backend-mode tag of the path. -/
def Service.putMode {κ μ β : Type} (s : Service κ μ β) (req : PutRequest) : StoreBackend :=
  if s.isSmall req then StoreRedisObject else StoreObjectOnly

/-- The calls made before route resolution: the cache write on the small path, none on
    the large path. -/
def Service.putPre {κ μ β : Type} (s : Service κ μ β) (req : PutRequest) : List Call :=
  if s.isSmall req then [s.cacheSetCall req.defaulted] else []

/-- The collaborator states before route resolution. -/
def Service.putWorld {κ μ β : Type} (s : Service κ μ β) (w : World κ μ β) (req : PutRequest) :
    World κ μ β :=
  if s.isSmall req then { w with cache := s.cacheAfterSet w req.defaulted } else w

/-- Steps 2 to 6 of `putSmall`, which are also the whole of `putLarge`: `pre` is the call
    log so far, `body` and `size` what is handed to the backend, `mode` the backend-mode
    tag.  `putSmall_eq` and `putLarge_eq` show that both functions run exactly these
    steps. -/
def Service.putTail {κ μ β : Type} (s : Service κ μ β) (w : World κ μ β) (pre : List Call)
    (req : PutRequest) (body : Body) (size : Int) (mode : StoreBackend) :
    Outcome PutResponse κ μ β :=
  match s.router.ResolveRoute req.routeKey with
  | .error e => ⟨.error e, w, pre ++ [.resolveRoute req.routeKey]⟩
  | .ok route =>
    match s.providers.Get route.ProviderName with
    | none =>
      ⟨.error (.noBackend route.ProviderName), w,
       pre ++ [.resolveRoute req.routeKey, .registryGet route.ProviderName]⟩
    | some backend =>
      match backend.PutObject w.store (req.location route) body size req.options with
      | (.error e, st) =>
        ⟨.error e, { w with store := st },
         pre ++ [.resolveRoute req.routeKey, .registryGet route.ProviderName,
                 .backendPut route.ProviderName (req.location route) body size req.options]⟩
      | (.ok etag, st) =>
        match s.metaRepo.PutObject w.metaRepo (some (req.record route size mode etag)) with
        | (some e, m) =>
          ⟨.error e, { w with store := st, metaRepo := m },
           pre ++ [.resolveRoute req.routeKey, .registryGet route.ProviderName,
                   .backendPut route.ProviderName (req.location route) body size req.options,
                   .metaPut (req.record route size mode etag)]⟩
        | (none, m) =>
          ⟨.ok { ETag := etag, Backend := mode, Size := size },
           { w with store := st, metaRepo := m },
           pre ++ [.resolveRoute req.routeKey, .registryGet route.ProviderName,
                   .backendPut route.ProviderName (req.location route) body size req.options,
                   .metaPut (req.record route size mode etag)]⟩

/-! ### Names for the steps of `Get` after a cache miss -/

/-- The backend that `Get` settles on for a record, with the registry key under which it
    was found: the entry under the record's provider type, else the entry under the
    record's physical bucket. -/
def Service.findBackend {κ μ β : Type} (s : Service κ μ β) (o : ObjectRecord) :
    Option (String × ObjectStorage β) :=
  match s.providers.Get o.ProviderType with
  | some backend => some (o.ProviderType, backend)
  | none =>
    match s.providers.Get o.ProviderBucket with
    | some backend => some (o.ProviderBucket, backend)
    | none => none

/-- The registry lookups that `Get` makes for a record. -/
def Service.findBackendCalls {κ μ β : Type} (s : Service κ μ β) (o : ObjectRecord) :
    List Call :=
  match s.providers.Get o.ProviderType with
  | some _ => [.registryGet o.ProviderType]
  | none => [.registryGet o.ProviderType, .registryGet o.ProviderBucket]

/-- The `ObjectLocation` literal of `Get`: the location stored in the record. -/
def ObjectRecord.location (o : ObjectRecord) : ObjectLocation :=
  { ProviderType := o.ProviderType, ProviderRegion := o.ProviderRegion,
    ProviderBucket := o.ProviderBucket, PhysicalKey := o.PhysicalKey }

/-- The last steps of `Get`, from the backend read on: `pre` is the call log so far,
    `name` and `backend` the registry entry settled on, `loc` the location read.
    `getMiss_eq_read` shows that `getMiss` runs exactly these steps. -/
def Service.getRead {κ μ β : Type} (s : Service κ μ β) (w : World κ μ β) (ck : String)
    (pre : List Call) (name : String) (backend : ObjectStorage β) (loc : ObjectLocation) :
    Outcome GetResponse κ μ β :=
  match backend.GetObject w.store loc with
  | (.error e, st) => ⟨.error e, { w with store := st }, pre ++ [.backendGet name loc]⟩
  | (.ok (body, size, contentType), st) =>
    if 0 < size ∧ size ≤ s.smallFileThreshold then
      match body.err with
      | some e => ⟨.error e, { w with store := st }, pre ++ [.backendGet name loc]⟩
      | none =>
        ⟨.ok { Size := size, ContentType := contentType, Body := Body.ofBytes body.data },
         { w with store := st,
                  cache := (s.cache.SetObject w.cache ck body.data s.cacheTTL).2 },
         pre ++ [.backendGet name loc, .cacheSet ck body.data s.cacheTTL]⟩
    else
      ⟨.ok { Size := size, ContentType := contentType, Body := body },
       { w with store := st }, pre ++ [.backendGet name loc]⟩

/-! ## Reference collaborators

Two simple implementations of the collaborator contracts, used to run the service on
concrete inputs: a cache that stores what it is given, and a backend that stores the
bytes of the stream it is handed together with the content type. -/

/-- A cache that keeps every value it is given and never fails; a missing key is the
    error `redis.Nil`. -/
def mapCache : RedisCache (GoMap Bytes) where
  GetObject := fun c k =>
    match c.get k with
    | some v => (.ok v, c)
    | none => (.error (.other "redis: nil"), c)
  SetObject := fun c k v _ => (none, c.set k v)
  Del := fun c _ => (none, c)

structure StoredObject where
  loc : ObjectLocation
  data : Bytes
  contentType : String
deriving DecidableEq, Repr

/-- A backend that keeps, per location, the bytes of the stream and the content type; the
    entity tag it answers is `tag`. -/
def memBackend (tag : String) : ObjectStorage (List StoredObject) where
  PutObject := fun st loc body _ opts =>
    match body.err with
    | some e => (.error e, st)
    | none => (.ok tag, ⟨loc, body.data, opts.ContentType⟩ :: st.filter (fun o => o.loc ≠ loc))
  GetObject := fun st loc =>
    match st.find? (fun o => o.loc = loc) with
    | some o => (.ok (Body.ofBytes o.data, (o.data.length : Int), o.contentType), st)
    | none => (.error (.other "no such key"), st)
  DeleteObject := fun st loc => (none, st.filter (fun o => o.loc ≠ loc))

/-! ## Classification of calls -/

/-- The call writes the cache. -/
def Call.isCacheSet : Call → Bool
  | .cacheSet _ _ _ => true
  | _ => false

/-- The call reads or writes the metadata store. -/
def Call.isMetadata : Call → Bool
  | .metaGet _ _ _ _ => true
  | .metaPut _ => true
  | _ => false

/-- The call reads or writes a backend. -/
def Call.isBackend : Call → Bool
  | .backendPut _ _ _ _ _ => true
  | .backendGet _ _ => true
  | _ => false

/-- The key of a call to the cache. -/
def Call.cacheKeyOf : Call → Option String
  | .cacheGet k => some k
  | .cacheSet k _ _ => some k
  | _ => none

/-- The physical key that a call hands to a backend on a put, or submits to the metadata
    store inside a record. -/
def Call.physicalKeyOf : Call → Option String
  | .backendPut _ loc _ _ _ => some loc.PhysicalKey
  | .metaPut o => some o.PhysicalKey
  | _ => none

/-! ## A configured gateway

The scenario of the specification: environment `prod`, logical region `us`, bucket
`assets`, class `HOT`, routed to provider `p1` (an S3 provider) and physical bucket
`phys-assets`.  As in `app.NewHTTPServer`, the registry holds the adapter of each
configured provider under the provider's name. -/

def p1 : ProviderConfig :=
  { Name := "p1", Type_ := "AWS_S3", Region := "us-east-1", Endpoint := "s3.example",
    AccessKey := "", SecretKey := "", UseSSL := true, AccountID := "", ProjectID := "",
    CredentialRef := "" }

def demoConfig : ObjectStorageConfig :=
  { DefaultStorageClass := "HOT",
    Routes := [{ Env := "prod", LogicalRegion := "us", Bucket := "assets",
                 StorageClass := "HOT", ProviderName := "p1",
                 ProviderBucket := "phys-assets" }],
    Providers := [p1] }

abbrev DemoWorld := World (GoMap Bytes) InMemoryRepository (List StoredObject)

abbrev DemoService := Service (GoMap Bytes) InMemoryRepository (List StoredObject)

def demoRegistry : ProviderRegistry (List StoredObject) :=
  NewProviderRegistry.Register "p1" (memBackend "etag-1")

def demoService : DemoService :=
  NewService mapCache (InMemoryRepository.repository 1700000000)
    (NewStaticRouter demoConfig).objectRoute demoRegistry

/-- The same gateway one minute later. -/
def laterService : DemoService :=
  NewService mapCache (InMemoryRepository.repository 1700000060)
    (NewStaticRouter demoConfig).objectRoute demoRegistry

def emptyWorld : DemoWorld := { cache := [], metaRepo := NewInMemoryRepository, store := [] }

def payload : Bytes := [104, 101, 108, 108, 111]

/-- A put of five bytes that declares size 0, so that it takes the large-object path. -/
def largeRequest : PutRequest :=
  { Env := "prod", LogicalRegion := "us", Bucket := "assets", Key := "a.png",
    ContentType := "image/png", Size := 0, Body := Body.ofBytes payload, StorageClass := "HOT" }

/-- A put of five bytes that declares size 5. -/
def smallRequest : PutRequest :=
  { Env := "prod", LogicalRegion := "us", Bucket := "assets", Key := "a.png",
    ContentType := "image/png", Size := 5, Body := Body.ofBytes payload, StorageClass := "" }

/-- A body of 1048577 bytes, one more than the small-object threshold. -/
def bigPayload : Bytes := List.replicate 1048577 0

/-- A put that declares size 100 and carries the 1048577 bytes of `bigPayload`. -/
def oversizedRequest : PutRequest :=
  { Env := "prod", LogicalRegion := "us", Bucket := "assets", Key := "a.png",
    ContentType := "image/png", Size := 100, Body := Body.ofBytes bigPayload,
    StorageClass := "HOT" }

/-- A gateway with no route and no registered backend. -/
def bareService : DemoService :=
  NewService mapCache (InMemoryRepository.repository 1700000000)
    (NewStaticRouter { DefaultStorageClass := "HOT", Routes := [], Providers := [] }).objectRoute
    NewProviderRegistry

/-- A world in which only the cache holds something for `prod/assets/a.png`. -/
def cachedWorld : DemoWorld :=
  { cache := [("obj:prod:assets:a.png", payload)], metaRepo := NewInMemoryRepository,
    store := [] }

/-- The record that a large-path put of `payload` leaves, after a soft delete. -/
def deletedRecord : ObjectRecord :=
  { Env := "prod", LogicalRegion := "us", Bucket := "assets", ObjectKey := "a.png",
    SizeBytes := 5, ContentType := "image/png", StorageClass := "HOT",
    StoreBackend := StoreObjectOnly, ProviderType := "AWS_S3", ProviderRegion := "us-east-1",
    ProviderBucket := "phys-assets", PhysicalKey := "prod/us/assets/a.png", ETag := "etag-1",
    Version := 1, Status := "DELETED", CreatedAt := 1700000000, UpdatedAt := 1700000050 }

/-- A world with an empty cache, a soft-deleted record, and the object still in the
    backend. -/
def deletedWorld : DemoWorld :=
  { cache := [], metaRepo := ⟨[("prod|us|assets|a.png", deletedRecord)]⟩,
    store := [⟨⟨"AWS_S3", "us-east-1", "phys-assets", "prod/us/assets/a.png"⟩, payload,
               "image/png"⟩] }

/-- A cache whose writes always fail and whose reads always miss. -/
def brokenCache : RedisCache Unit where
  GetObject := fun c _ => (.error (.other "redis: connection refused"), c)
  SetObject := fun c _ _ _ => (some (.other "redis: connection refused"), c)
  Del := fun c _ => (some (.other "redis: connection refused"), c)

/-- A put for an address that the routing table does not know. -/
def unroutedRequest : PutRequest :=
  { Env := "prod", LogicalRegion := "us", Bucket := "assets", Key := "a.png",
    ContentType := "image/png", Size := 5, Body := Body.ofBytes payload,
    StorageClass := "COLD" }

/-- A configuration with a rule that names an unknown provider, two rules for the same
    key, and two definitions of the provider `p1`. -/
def shadowConfig : ObjectStorageConfig :=
  { DefaultStorageClass := "HOT",
    Routes := [⟨"prod", "us", "assets", "HOT", "p9", "b0"⟩,
               ⟨"prod", "us", "assets", "HOT", "p1", "b1"⟩,
               ⟨"prod", "us", "assets", "HOT", "p1", "b2"⟩],
    Providers := [p1, { p1 with Type_ := "GCP_GCS", Region := "eu-west-1" }] }

/-- An in-memory repository whose only row is the soft-deleted `deletedRecord`. -/
def deletedRepo : InMemoryRepository := ⟨[("prod|us|assets|a.png", deletedRecord)]⟩

/-- The record that a large-path put of `payload` leaves. -/
def activeRecord : ObjectRecord := { deletedRecord with Status := "ACTIVE" }

/-- A world with an empty cache, an ACTIVE record, and the object in the backend. -/
def activeWorld : DemoWorld :=
  { cache := [], metaRepo := ⟨[("prod|us|assets|a.png", activeRecord)]⟩,
    store := [⟨⟨"AWS_S3", "us-east-1", "phys-assets", "prod/us/assets/a.png"⟩, payload,
               "image/png"⟩] }

/-- A registry with an entry under the provider type of `activeRecord` and another under
    its physical bucket. -/
def typedRegistry : ProviderRegistry (List StoredObject) :=
  (NewProviderRegistry.Register "phys-assets" (memBackend "by-bucket")).Register "AWS_S3"
    (memBackend "by-type")

def typedService : DemoService :=
  NewService mapCache (InMemoryRepository.repository 1700000000)
    (NewStaticRouter demoConfig).objectRoute typedRegistry

/-- A record for the object `y` of the bucket `assets|x`. -/
def barRecord : ObjectRecord :=
  { activeRecord with Bucket := "assets|x", ObjectKey := "y",
                      PhysicalKey := "prod/us/assets|x/y", Version := 0 }

/-- A record for the object `x|y` of the bucket `assets`. -/
def plainRecord : ObjectRecord :=
  { activeRecord with Bucket := "assets", ObjectKey := "x|y",
                      PhysicalKey := "prod/us/assets/x|y", ETag := "etag-2", Version := 0 }

/-- A put whose key has several path segments. -/
def nestedRequest : PutRequest :=
  { Env := "prod", LogicalRegion := "us", Bucket := "assets", Key := "img/2024/a.png",
    ContentType := "image/png", Size := 5, Body := Body.ofBytes payload, StorageClass := "HOT" }

/-- A put that declares five bytes and whose body breaks after two. -/
def brokenBodyRequest : PutRequest :=
  { Env := "prod", LogicalRegion := "us", Bucket := "assets", Key := "a.png",
    ContentType := "image/png", Size := 5,
    Body := { data := [104, 101], err := some (.other "unexpected EOF") },
    StorageClass := "HOT" }

/-- A configuration whose provider is named after its type, so that the registry entry
    that `Put` uses is also the one that `Get` finds, with a route for the bucket
    `assets|x`. -/
def aliasConfig : ObjectStorageConfig :=
  { DefaultStorageClass := "HOT",
    Routes := [{ Env := "prod", LogicalRegion := "us", Bucket := "assets|x",
                 StorageClass := "HOT", ProviderName := "AWS_S3",
                 ProviderBucket := "phys-assets" }],
    Providers := [{ p1 with Name := "AWS_S3" }] }

def aliasService : DemoService :=
  NewService mapCache (InMemoryRepository.repository 1700000000)
    (NewStaticRouter aliasConfig).objectRoute
    (NewProviderRegistry.Register "AWS_S3" (memBackend "etag-1"))

/-- A put of `payload` to the object `y` of the bucket `assets|x`. -/
def barRequest : PutRequest :=
  { Env := "prod", LogicalRegion := "us", Bucket := "assets|x", Key := "y",
    ContentType := "image/png", Size := 5, Body := Body.ofBytes payload, StorageClass := "HOT" }

/-- The address of the object `x|y` of the bucket `assets`, to which nothing was written. -/
def otherAddress : GetRequest :=
  { Env := "prod", LogicalRegion := "us", Bucket := "assets", Key := "x|y" }

/-- Every entry of the map sits under the key of its own record: the state of a
    repository that was only ever changed by `PutObject` and `MarkDeleted`. -/
def InMemoryRepository.WellKeyed (r : InMemoryRepository) : Prop :=
  ∀ e ∈ r.data, e.1 = makeKey e.2.Env e.2.LogicalRegion e.2.Bucket e.2.ObjectKey

/-- No stored record has a `|` in its environment, logical region or bucket. -/
def InMemoryRepository.BarFree (r : InMemoryRepository) : Prop :=
  ∀ e ∈ r.data, '|' ∉ e.2.Env.toList ∧ '|' ∉ e.2.LogicalRegion.toList ∧
    '|' ∉ e.2.Bucket.toList

def demoAddress : GetRequest :=
  { Env := "prod", LogicalRegion := "us", Bucket := "assets", Key := "a.png" }

/-! # Theorems -/

section Put
variable {κ μ β : Type}

/-! ## `putSmall` and `putLarge` as the shared sequence of steps -/

theorem putLarge_eq (s : Service κ μ β) (w : World κ μ β) (req : PutRequest) :
    s.putLarge w req = s.putTail w [] req req.Body req.Size StoreObjectOnly := by
  simp only [Service.putLarge, Service.putTail, PutRequest.routeKey, PutRequest.location,
    PutRequest.options, PutRequest.record, List.nil_append, List.cons_append,
    List.append_assoc]

theorem putSmall_eq (s : Service κ μ β) (w : World κ μ β) (req : PutRequest) :
    s.putSmall w req =
      match req.Body.err with
      | some e => ⟨.error e, w, []⟩
      | none =>
        s.putTail { w with cache := s.cacheAfterSet w req } [s.cacheSetCall req] req
          (Body.ofBytes req.Body.data) req.Body.data.length StoreRedisObject := by
  simp only [Service.putSmall, Service.putTail, PutRequest.routeKey, PutRequest.location,
    PutRequest.options, PutRequest.record, Service.cacheAfterSet, Service.cacheSetCall,
    List.nil_append, List.cons_append, List.append_assoc]

theorem Put_eq (s : Service κ μ β) (w : World κ μ β) (req : PutRequest) :
    s.Put w req =
      if 0 < req.Size ∧ req.Size ≤ s.smallFileThreshold then s.putSmall w req.defaulted
      else s.putLarge w req.defaulted := by
  simp only [Service.Put, PutRequest.defaulted]
  split <;> rfl

/-! ## The steps of `putTail`, one lemma per way out -/

theorem putTail_route_error (s : Service κ μ β) (w : World κ μ β) (pre : List Call)
    (req : PutRequest) (body : Body) (size : Int) (mode : StoreBackend) (e : Error)
    (hr : s.router.ResolveRoute req.routeKey = .error e) :
    s.putTail w pre req body size mode = ⟨.error e, w, pre ++ [.resolveRoute req.routeKey]⟩ := by
  simp only [Service.putTail, hr]

theorem putTail_no_backend (s : Service κ μ β) (w : World κ μ β) (pre : List Call)
    (req : PutRequest) (body : Body) (size : Int) (mode : StoreBackend) (route : RouteResult)
    (hr : s.router.ResolveRoute req.routeKey = .ok route)
    (hg : s.providers.Get route.ProviderName = none) :
    s.putTail w pre req body size mode =
      ⟨.error (.noBackend route.ProviderName), w,
       pre ++ [.resolveRoute req.routeKey, .registryGet route.ProviderName]⟩ := by
  simp only [Service.putTail, hr, hg]

theorem putTail_backend_error (s : Service κ μ β) (w : World κ μ β) (pre : List Call)
    (req : PutRequest) (body : Body) (size : Int) (mode : StoreBackend) (route : RouteResult)
    (backend : ObjectStorage β) (e : Error) (st : β)
    (hr : s.router.ResolveRoute req.routeKey = .ok route)
    (hg : s.providers.Get route.ProviderName = some backend)
    (hp : backend.PutObject w.store (req.location route) body size req.options = (.error e, st)) :
    s.putTail w pre req body size mode =
      ⟨.error e, { w with store := st },
       pre ++ [.resolveRoute req.routeKey, .registryGet route.ProviderName,
               .backendPut route.ProviderName (req.location route) body size req.options]⟩ := by
  simp only [Service.putTail, hr, hg, hp]

theorem putTail_meta_error (s : Service κ μ β) (w : World κ μ β) (pre : List Call)
    (req : PutRequest) (body : Body) (size : Int) (mode : StoreBackend) (route : RouteResult)
    (backend : ObjectStorage β) (etag : String) (st : β) (e : Error) (m : μ)
    (hr : s.router.ResolveRoute req.routeKey = .ok route)
    (hg : s.providers.Get route.ProviderName = some backend)
    (hp : backend.PutObject w.store (req.location route) body size req.options = (.ok etag, st))
    (hm : s.metaRepo.PutObject w.metaRepo (some (req.record route size mode etag)) = (some e, m)) :
    s.putTail w pre req body size mode =
      ⟨.error e, { w with store := st, metaRepo := m },
       pre ++ [.resolveRoute req.routeKey, .registryGet route.ProviderName,
               .backendPut route.ProviderName (req.location route) body size req.options,
               .metaPut (req.record route size mode etag)]⟩ := by
  simp only [Service.putTail, hr, hg, hp, hm]

theorem putTail_success (s : Service κ μ β) (w : World κ μ β) (pre : List Call)
    (req : PutRequest) (body : Body) (size : Int) (mode : StoreBackend) (route : RouteResult)
    (backend : ObjectStorage β) (etag : String) (st : β) (m : μ)
    (hr : s.router.ResolveRoute req.routeKey = .ok route)
    (hg : s.providers.Get route.ProviderName = some backend)
    (hp : backend.PutObject w.store (req.location route) body size req.options = (.ok etag, st))
    (hm : s.metaRepo.PutObject w.metaRepo (some (req.record route size mode etag)) = (none, m)) :
    s.putTail w pre req body size mode =
      ⟨.ok { ETag := etag, Backend := mode, Size := size },
       { w with store := st, metaRepo := m },
       pre ++ [.resolveRoute req.routeKey, .registryGet route.ProviderName,
               .backendPut route.ProviderName (req.location route) body size req.options,
               .metaPut (req.record route size mode etag)]⟩ := by
  simp only [Service.putTail, hr, hg, hp, hm]

/-- Inversion: a `putTail` that returns a response went through all four steps. -/
theorem putTail_ok_inv (s : Service κ μ β) (w : World κ μ β) (pre : List Call)
    (req : PutRequest) (body : Body) (size : Int) (mode : StoreBackend) (resp : PutResponse)
    (h : (s.putTail w pre req body size mode).result = .ok resp) :
    ∃ route backend etag st m,
      s.router.ResolveRoute req.routeKey = .ok route ∧
      s.providers.Get route.ProviderName = some backend ∧
      backend.PutObject w.store (req.location route) body size req.options = (.ok etag, st) ∧
      s.metaRepo.PutObject w.metaRepo (some (req.record route size mode etag)) = (none, m) ∧
      resp = { ETag := etag, Backend := mode, Size := size } := by
  cases hr : s.router.ResolveRoute req.routeKey with
  | error e => rw [putTail_route_error s w pre req body size mode e hr] at h; cases h
  | ok route =>
    cases hg : s.providers.Get route.ProviderName with
    | none => rw [putTail_no_backend s w pre req body size mode route hr hg] at h; cases h
    | some backend =>
      rcases hp : backend.PutObject w.store (req.location route) body size req.options with
        ⟨_ | etag, st⟩
      · rw [putTail_backend_error s w pre req body size mode route backend _ st hr hg hp] at h
        cases h
      · rcases hm : s.metaRepo.PutObject w.metaRepo (some (req.record route size mode etag))
          with ⟨_ | e, m⟩
        · rw [putTail_success s w pre req body size mode route backend etag st m hr hg hp hm]
            at h
          exact ⟨route, backend, etag, st, m, rfl, hg, hp, hm, by injection h with h; exact h.symm⟩
        · rw [putTail_meta_error s w pre req body size mode route backend etag st e m hr hg hp
            hm] at h
          cases h

@[simp] theorem defaulted_Size (req : PutRequest) : req.defaulted.Size = req.Size := by
  unfold PutRequest.defaulted; split <;> rfl

@[simp] theorem defaulted_Body (req : PutRequest) : req.defaulted.Body = req.Body := by
  unfold PutRequest.defaulted; split <;> rfl

@[simp] theorem defaulted_Env (req : PutRequest) : req.defaulted.Env = req.Env := by
  unfold PutRequest.defaulted; split <;> rfl

@[simp] theorem defaulted_LogicalRegion (req : PutRequest) :
    req.defaulted.LogicalRegion = req.LogicalRegion := by
  unfold PutRequest.defaulted; split <;> rfl

@[simp] theorem defaulted_Bucket (req : PutRequest) : req.defaulted.Bucket = req.Bucket := by
  unfold PutRequest.defaulted; split <;> rfl

@[simp] theorem defaulted_Key (req : PutRequest) : req.defaulted.Key = req.Key := by
  unfold PutRequest.defaulted; split <;> rfl

@[simp] theorem defaulted_ContentType (req : PutRequest) :
    req.defaulted.ContentType = req.ContentType := by
  unfold PutRequest.defaulted; split <;> rfl

theorem Put_body_error (s : Service κ μ β) (w : World κ μ β) (req : PutRequest) (e : Error)
    (hs : s.isSmall req) (hb : req.Body.err = some e) :
    s.Put w req = ⟨.error e, w, []⟩ := by
  have hb' : req.defaulted.Body.err = some e := by simpa using hb
  have hs' : 0 < req.Size ∧ req.Size ≤ s.smallFileThreshold := hs
  rw [Put_eq, if_pos hs', putSmall_eq, hb']

theorem Put_eq_tail (s : Service κ μ β) (w : World κ μ β) (req : PutRequest)
    (hb : s.isSmall req → req.Body.err = none) :
    s.Put w req =
      s.putTail (s.putWorld w req) (s.putPre req) req.defaulted (s.putBody req)
        (s.putSize req) (s.putMode req) := by
  rw [Put_eq]
  by_cases hs : s.isSmall req
  · have hb' : req.defaulted.Body.err = none := by simpa using hb hs
    have hs' : 0 < req.Size ∧ req.Size ≤ s.smallFileThreshold := hs
    rw [if_pos hs', putSmall_eq, hb']
    simp [Service.putWorld, Service.putPre, Service.putBody, Service.putSize,
      Service.putMode, hs]
  · have hs' : ¬(0 < req.Size ∧ req.Size ≤ s.smallFileThreshold) := hs
    rw [if_neg hs', putLarge_eq]
    simp [Service.putWorld, Service.putPre, Service.putBody, Service.putSize,
      Service.putMode, hs]

@[simp] theorem putWorld_store (s : Service κ μ β) (w : World κ μ β) (req : PutRequest) :
    (s.putWorld w req).store = w.store := by
  unfold Service.putWorld; split <;> rfl

@[simp] theorem putWorld_metaRepo (s : Service κ μ β) (w : World κ μ β) (req : PutRequest) :
    (s.putWorld w req).metaRepo = w.metaRepo := by
  unfold Service.putWorld; split <;> rfl

end Put

/-! ## C1: put followed by get -/

/-- C1, evaluated on the configured gateway: the put of `payload` to
    `prod/us/assets/a.png` on the large-object path succeeds, through the route to
    provider `p1` whose adapter is registered under `p1`; the get that follows it
    misses the cache, finds the record, looks the registry up under the record's
    provider type `AWS_S3` and then under its physical bucket `phys-assets`, and fails
    with "no backend for provider AWS_S3" without reading the object back. -/
theorem put_then_get_large_fails :
    (NewStaticRouter demoConfig).ResolveRoute largeRequest.routeKey
        = .ok ⟨"p1", "AWS_S3", "us-east-1", "phys-assets"⟩ ∧
    (demoRegistry.Get "p1").isSome = true ∧
    (demoService.Put emptyWorld largeRequest).result = .ok ⟨"etag-1", StoreObjectOnly, 0⟩ ∧
    (demoService.Put emptyWorld largeRequest).world.store
        = [⟨⟨"AWS_S3", "us-east-1", "phys-assets", "prod/us/assets/a.png"⟩, payload,
            "image/png"⟩] ∧
    (demoService.Get (demoService.Put emptyWorld largeRequest).world demoAddress).result
        = .error (.noBackend "AWS_S3") ∧
    (demoService.Get (demoService.Put emptyWorld largeRequest).world demoAddress).calls
        = [.cacheGet "obj:prod:assets:a.png", .metaGet "prod" "us" "assets" "a.png",
           .registryGet "AWS_S3", .registryGet "phys-assets"] := by
  refine ⟨by decide, by decide, by decide, by decide, by decide, by decide⟩

/-! ## C2: the path decision and the response of a successful put -/

section PutResponse
variable {κ μ β : Type}

theorem putTail_calls_prefix (s : Service κ μ β) (w : World κ μ β) (pre : List Call)
    (req : PutRequest) (body : Body) (size : Int) (mode : StoreBackend) :
    ∃ post, (s.putTail w pre req body size mode).calls = pre ++ post ∧
      ∀ c ∈ post, c.isCacheSet = false ∧ c.cacheKeyOf = none ∧
        ∀ k, c.physicalKeyOf = some k → k = buildPhysicalKey req := by
  unfold Service.putTail
  repeat' split
  all_goals
    exact ⟨_, rfl, by
      simp [Call.isCacheSet, Call.cacheKeyOf, Call.physicalKeyOf, PutRequest.location,
        PutRequest.record]⟩

theorem putTail_cache (s : Service κ μ β) (w : World κ μ β) (pre : List Call)
    (req : PutRequest) (body : Body) (size : Int) (mode : StoreBackend) :
    (s.putTail w pre req body size mode).world.cache = w.cache := by
  unfold Service.putTail
  repeat' split
  all_goals rfl

/-- On the small path, once the body is buffered, the cache write of the whole body is
    the first call and the only cache write, and its effect is the final cache state,
    whether the put then succeeds or fails. -/
theorem Put_small_cache_write (s : Service κ μ β) (w : World κ μ β) (req : PutRequest)
    (hs : s.isSmall req) (hb : req.Body.err = none) :
    (s.Put w req).calls.head? = some (s.cacheSetCall req.defaulted) ∧
    (s.Put w req).calls.filter Call.isCacheSet = [s.cacheSetCall req.defaulted] ∧
    (s.Put w req).world.cache = s.cacheAfterSet w req.defaulted := by
  rw [Put_eq_tail s w req (fun _ => hb)]
  obtain ⟨post, hcalls, hpost⟩ := putTail_calls_prefix s (s.putWorld w req) (s.putPre req)
    req.defaulted (s.putBody req) (s.putSize req) (s.putMode req)
  have hnil : post.filter Call.isCacheSet = [] :=
    List.filter_eq_nil_iff.mpr (by simpa using fun c hc => (hpost c hc).1)
  have hpre : s.putPre req = [s.cacheSetCall req.defaulted] := by
    simp only [Service.putPre, hs, if_true]
  have hw : (s.putWorld w req).cache = s.cacheAfterSet w req.defaulted := by
    simp only [Service.putWorld, hs, if_true]
  rw [hcalls, hpre, putTail_cache, hw, List.filter_append, hnil]
  exact ⟨rfl, by simp [Service.cacheSetCall, Call.isCacheSet], rfl⟩

/-- On the large path no cache write is made and the cache state is unchanged, whether
    the put succeeds or fails. -/
theorem Put_large_no_cache_write (s : Service κ μ β) (w : World κ μ β) (req : PutRequest)
    (hs : ¬s.isSmall req) :
    (s.Put w req).calls.filter Call.isCacheSet = [] ∧ (s.Put w req).world.cache = w.cache := by
  rw [Put_eq_tail s w req (fun h => absurd h hs)]
  obtain ⟨post, hcalls, hpost⟩ := putTail_calls_prefix s (s.putWorld w req) (s.putPre req)
    req.defaulted (s.putBody req) (s.putSize req) (s.putMode req)
  have hnil : post.filter Call.isCacheSet = [] :=
    List.filter_eq_nil_iff.mpr (by simpa using fun c hc => (hpost c hc).1)
  have hpre : s.putPre req = [] := by
    simp only [Service.putPre, hs, if_false]
  have hw : s.putWorld w req = w := by
    simp only [Service.putWorld, hs, if_false]
  rw [hcalls, hpre, putTail_cache, hw, List.nil_append, hnil]
  exact ⟨rfl, rfl⟩

theorem NewService_isSmall (cache : RedisCache κ) (repo : Repository μ) (router : ObjectRoute)
    (registry : ProviderRegistry β) (req : PutRequest) :
    (NewService cache repo router registry).isSmall req ↔ 0 < req.Size ∧ req.Size ≤ 1048576 := by
  simp [Service.isSmall, NewService]

/-- C2: with the threshold of `NewService` (1048576 bytes), every `Put`, successful or
    not, runs `putSmall` when `0 < Size ≤ 1048576` and `putLarge` for every other
    declared size.  On the small path a body that cannot be read to its end ends the
    put before any call; otherwise the cache write of the buffered bytes under the cache
    key is the first call and the only cache write, and its effect is the final cache
    state.  On the large path no cache write is made and the cache state is unchanged.
    When the put succeeds, the route resolved and its provider is registered, and: on
    the small path the body was read to its end, the backend returned `resp.ETag` for
    the buffered bytes, `Backend = REDIS_OBJECT` and `Size` is the number of bytes read;
    on the large path the backend returned `resp.ETag` for the request body,
    `Backend = OBJECT_ONLY` and `Size` is the declared size. -/
theorem Put_path_and_response (cache : RedisCache κ) (repo : Repository μ)
    (router : ObjectRoute) (registry : ProviderRegistry β) (w : World κ μ β)
    (req : PutRequest) :
    ((NewService cache repo router registry).Put w req =
      if 0 < req.Size ∧ req.Size ≤ 1048576 then
        (NewService cache repo router registry).putSmall w req.defaulted
      else (NewService cache repo router registry).putLarge w req.defaulted) ∧
    (0 < req.Size ∧ req.Size ≤ 1048576 →
      (∀ e, req.Body.err = some e →
        (NewService cache repo router registry).Put w req = ⟨.error e, w, []⟩) ∧
      (req.Body.err = none →
        ((NewService cache repo router registry).Put w req).calls.head?
          = some (.cacheSet (cacheKey req.Env req.Bucket req.Key) req.Body.data
              defaultCacheTTL) ∧
        ((NewService cache repo router registry).Put w req).calls.filter Call.isCacheSet =
          [.cacheSet (cacheKey req.Env req.Bucket req.Key) req.Body.data defaultCacheTTL] ∧
        ((NewService cache repo router registry).Put w req).world.cache =
          (cache.SetObject w.cache (cacheKey req.Env req.Bucket req.Key) req.Body.data
            defaultCacheTTL).2)) ∧
    (¬(0 < req.Size ∧ req.Size ≤ 1048576) →
      ((NewService cache repo router registry).Put w req).calls.filter Call.isCacheSet = [] ∧
      ((NewService cache repo router registry).Put w req).world.cache = w.cache) ∧
    (∀ resp, ((NewService cache repo router registry).Put w req).result = .ok resp →
      ∃ route backend st,
        router.ResolveRoute req.defaulted.routeKey = .ok route ∧
        registry.Get route.ProviderName = some backend ∧
        (0 < req.Size ∧ req.Size ≤ 1048576 →
          req.Body.err = none ∧
          backend.PutObject w.store (req.defaulted.location route)
            (Body.ofBytes req.Body.data) req.Body.data.length req.defaulted.options
            = (.ok resp.ETag, st) ∧
          resp.Backend = StoreRedisObject ∧
          resp.Size = req.Body.data.length) ∧
        (¬(0 < req.Size ∧ req.Size ≤ 1048576) →
          backend.PutObject w.store (req.defaulted.location route) req.Body req.Size
            req.defaulted.options = (.ok resp.ETag, st) ∧
          resp.Backend = StoreObjectOnly ∧
          resp.Size = req.Size)) := by
  have hthr : (NewService cache repo router registry).smallFileThreshold = 1048576 := by
    simp [NewService]
  have hput := Put_eq (NewService cache repo router registry) w req
  rw [hthr] at hput
  have hiff := NewService_isSmall cache repo router registry req
  refine ⟨hput, fun hs => ⟨fun e hb => ?_, fun hb => ?_⟩, fun hs => ?_, fun resp h => ?_⟩
  · exact Put_body_error _ w req e (hiff.mpr hs) hb
  · obtain ⟨h1, h2, h3⟩ := Put_small_cache_write (NewService cache repo router registry) w req
      (hiff.mpr hs) hb
    refine ⟨?_, ?_, ?_⟩
    · rw [h1]; simp [Service.cacheSetCall, NewService]
    · rw [h2]; simp [Service.cacheSetCall, NewService]
    · rw [h3]; simp [Service.cacheAfterSet, NewService]
  · exact Put_large_no_cache_write (NewService cache repo router registry) w req
      (fun h => hs (hiff.mp h))
  · rw [hput] at h
    by_cases hs : 0 < req.Size ∧ req.Size ≤ 1048576
    · rw [if_pos hs, putSmall_eq] at h
      cases hb : req.defaulted.Body.err with
      | some e => rw [hb] at h; cases h
      | none =>
        rw [hb] at h
        simp only at h
        obtain ⟨route, backend, etag, st, m, hr, hg, hp, hm, rfl⟩ :=
          putTail_ok_inv _ _ _ _ _ _ _ _ h
        exact ⟨route, backend, st, hr, hg,
          (fun _ => ⟨by simpa using hb, by simpa using hp, rfl, by simp⟩),
          (fun hn => absurd hs hn)⟩
    · rw [if_neg hs, putLarge_eq] at h
      obtain ⟨route, backend, etag, st, m, hr, hg, hp, hm, rfl⟩ :=
        putTail_ok_inv _ _ _ _ _ _ _ _ h
      exact ⟨route, backend, st, hr, hg, (fun hn => absurd hn hs),
        (fun _ => ⟨by simpa using hp, rfl, by simp⟩)⟩

/-- Witness of C2 on the configured gateway.  A put declaring five bytes runs `putSmall`
    and succeeds with `REDIS_OBJECT`, size 5 and the backend's tag; a put declaring five
    bytes for which no route exists fails, and has written the cache all the same; a put
    declaring size 0 runs the large path, makes no cache write and answers
    `OBJECT_ONLY` with size 0. -/
theorem Put_path_and_response_witness :
    demoService.Put emptyWorld smallRequest
      = demoService.putSmall emptyWorld smallRequest.defaulted ∧
    (demoService.Put emptyWorld smallRequest).result = .ok ⟨"etag-1", StoreRedisObject, 5⟩ ∧
    (demoService.Put emptyWorld unroutedRequest).result
      = .error (.noRoute ⟨"prod", "us", "assets", "COLD"⟩) ∧
    (demoService.Put emptyWorld unroutedRequest).calls.filter Call.isCacheSet
      = [.cacheSet (cacheKey "prod" "assets" "a.png") payload defaultCacheTTL] ∧
    (demoService.Put emptyWorld largeRequest).result = .ok ⟨"etag-1", StoreObjectOnly, 0⟩ ∧
    (demoService.Put emptyWorld largeRequest).calls.filter Call.isCacheSet = [] :=
  ⟨(Put_path_and_response mapCache (InMemoryRepository.repository 1700000000)
      (NewStaticRouter demoConfig).objectRoute demoRegistry emptyWorld smallRequest).1.trans
      (if_pos (by decide)),
   by decide, by decide,
   (((Put_path_and_response mapCache (InMemoryRepository.repository 1700000000)
      (NewStaticRouter demoConfig).objectRoute demoRegistry emptyWorld unroutedRequest).2.1
      (by decide)).2 rfl).2.1,
   by decide,
   ((Put_path_and_response mapCache (InMemoryRepository.repository 1700000000)
      (NewStaticRouter demoConfig).objectRoute demoRegistry emptyWorld largeRequest).2.2.1
      (by decide)).1⟩

end PutResponse

/-! ## C3: the path decision does not look at the observed byte count -/

theorem bigPayload_length : bigPayload.length = 1048577 := by
  unfold bigPayload
  exact List.length_replicate _ _

/-- C3 fails as stated: the request `oversizedRequest` carries 1048577 bytes, more than
    the threshold, and declares size 100; `Put` takes the small-object path, answers
    `REDIS_OBJECT`, and writes the whole payload to the cache. -/
theorem Put_oversized_body_is_cached :
    (1048576 : Int) < oversizedRequest.Body.data.length ∧
    demoService.Put emptyWorld oversizedRequest
      = demoService.putSmall emptyWorld oversizedRequest.defaulted ∧
    (demoService.Put emptyWorld oversizedRequest).result
      = .ok ⟨"etag-1", StoreRedisObject, 1048577⟩ ∧
    (demoService.Put emptyWorld oversizedRequest).calls.filter Call.isCacheSet
      = [.cacheSet "obj:prod:assets:a.png" bigPayload defaultCacheTTL] ∧
    (demoService.Put emptyWorld oversizedRequest).world.cache
      = [("obj:prod:assets:a.png", bigPayload)] := by
  have hlen : oversizedRequest.Body.data.length = 1048577 := bigPayload_length
  have hput : demoService.Put emptyWorld oversizedRequest
      = demoService.putSmall emptyWorld oversizedRequest.defaulted :=
    (Put_eq demoService emptyWorld oversizedRequest).trans (if_pos (by decide))
  have hdef : oversizedRequest.defaulted = oversizedRequest := rfl
  have hout : demoService.putSmall emptyWorld oversizedRequest
      = ⟨.ok ⟨"etag-1", StoreRedisObject, bigPayload.length⟩,
         ⟨[("obj:prod:assets:a.png", bigPayload)],
          ⟨[("prod|us|assets|a.png",
             stamp 1700000000 (oversizedRequest.record ⟨"p1", "AWS_S3", "us-east-1", "phys-assets"⟩
               bigPayload.length StoreRedisObject "etag-1"))]⟩,
          [⟨⟨"AWS_S3", "us-east-1", "phys-assets", "prod/us/assets/a.png"⟩, bigPayload,
            "image/png"⟩]⟩,
         [.cacheSet "obj:prod:assets:a.png" bigPayload defaultCacheTTL,
          .resolveRoute oversizedRequest.routeKey, .registryGet "p1",
          .backendPut "p1" ⟨"AWS_S3", "us-east-1", "phys-assets", "prod/us/assets/a.png"⟩
            (Body.ofBytes bigPayload) bigPayload.length oversizedRequest.options,
          .metaPut (oversizedRequest.record ⟨"p1", "AWS_S3", "us-east-1", "phys-assets"⟩
               bigPayload.length StoreRedisObject "etag-1")]⟩ := by
    rw [putSmall_eq]
    exact putTail_success demoService _ _ oversizedRequest _ _ _
      ⟨"p1", "AWS_S3", "us-east-1", "phys-assets"⟩ (memBackend "etag-1") "etag-1" _ _
      (by decide) rfl rfl rfl
  rw [hput, hdef, hout]
  refine ⟨by rw [hlen]; decide, rfl, by rw [bigPayload_length]; rfl, ?_, rfl⟩
  simp [Call.isCacheSet]

/-- C3 as amended: the choice of path looks at the declared size only.  A request
    whose declared `Size` is 0, negative or above 1048576 runs `putLarge`, makes no cache
    write and leaves the cache state unchanged, whatever its body.  A request declaring
    `0 < Size ≤ 1048576` runs `putSmall`, whatever the length of its body: when the body
    can be read to the end, the first call is the cache write of the whole body, it is
    the only cache write, and its effect is the final cache state; when reading the body
    fails, the put returns that error, makes no call and leaves every state unchanged. -/
theorem Put_path_by_declared_size {κ μ β : Type} (cache : RedisCache κ) (repo : Repository μ)
    (router : ObjectRoute) (registry : ProviderRegistry β) (w : World κ μ β)
    (req : PutRequest) :
    (¬(0 < req.Size ∧ req.Size ≤ 1048576) →
      (NewService cache repo router registry).Put w req
        = (NewService cache repo router registry).putLarge w req.defaulted ∧
      ((NewService cache repo router registry).Put w req).calls.filter Call.isCacheSet = [] ∧
      ((NewService cache repo router registry).Put w req).world.cache = w.cache) ∧
    (0 < req.Size ∧ req.Size ≤ 1048576 →
      (NewService cache repo router registry).Put w req
        = (NewService cache repo router registry).putSmall w req.defaulted ∧
      (req.Body.err = none →
        ((NewService cache repo router registry).Put w req).calls.head?
          = some (.cacheSet (cacheKey req.Env req.Bucket req.Key) req.Body.data
                    defaultCacheTTL) ∧
        ((NewService cache repo router registry).Put w req).calls.filter Call.isCacheSet
          = [.cacheSet (cacheKey req.Env req.Bucket req.Key) req.Body.data
              defaultCacheTTL] ∧
        ((NewService cache repo router registry).Put w req).world.cache
          = (cache.SetObject w.cache (cacheKey req.Env req.Bucket req.Key) req.Body.data
              defaultCacheTTL).2) ∧
      (∀ e, req.Body.err = some e →
        (NewService cache repo router registry).Put w req = ⟨.error e, w, []⟩)) := by
  have hthr : (NewService cache repo router registry).smallFileThreshold = 1048576 := by
    simp [NewService]
  have hput := Put_eq (NewService cache repo router registry) w req
  rw [hthr] at hput
  have hiff := NewService_isSmall cache repo router registry req
  constructor
  · intro hs
    rw [if_neg hs] at hput
    obtain ⟨h1, h2⟩ := Put_large_no_cache_write (NewService cache repo router registry) w req
      (fun h => hs (hiff.mp h))
    exact ⟨hput, h1, h2⟩
  · intro hs
    rw [if_pos hs] at hput
    refine ⟨hput, fun hb => ?_, fun e hb => ?_⟩
    · obtain ⟨h1, h2, h3⟩ := Put_small_cache_write (NewService cache repo router registry) w req
        (hiff.mpr hs) hb
      refine ⟨?_, ?_, ?_⟩
      · rw [h1]; simp [Service.cacheSetCall, NewService]
      · rw [h2]; simp [Service.cacheSetCall, NewService]
      · rw [h3]; simp [Service.cacheAfterSet, NewService]
    · exact Put_body_error _ w req e (hiff.mpr hs) hb

/-- Witness of the amended C3: the request declaring size 0 runs `putLarge` and makes no
    cache write; the request declaring 100 bytes with a body of 1048577 bytes writes them
    all to the cache; a request declaring 5 bytes whose body breaks after two returns
    the error of the body and makes no call. -/
theorem Put_path_by_declared_size_witness :
    ¬(0 < largeRequest.Size ∧ largeRequest.Size ≤ 1048576) ∧
    (demoService.Put emptyWorld largeRequest
      = demoService.putLarge emptyWorld largeRequest.defaulted ∧
     (demoService.Put emptyWorld largeRequest).calls.filter Call.isCacheSet = [] ∧
     (demoService.Put emptyWorld largeRequest).world.cache = emptyWorld.cache) ∧
    (demoService.Put emptyWorld oversizedRequest).calls.filter Call.isCacheSet
      = [.cacheSet (cacheKey "prod" "assets" "a.png") bigPayload defaultCacheTTL] ∧
    demoService.Put emptyWorld brokenBodyRequest
      = ⟨.error (.other "unexpected EOF"), emptyWorld, []⟩ :=
  ⟨by decide,
   (Put_path_by_declared_size mapCache (InMemoryRepository.repository 1700000000)
      (NewStaticRouter demoConfig).objectRoute demoRegistry emptyWorld largeRequest).1
      (by decide),
   ((((Put_path_by_declared_size mapCache (InMemoryRepository.repository 1700000000)
      (NewStaticRouter demoConfig).objectRoute demoRegistry emptyWorld oversizedRequest).2
      (by decide)).2.1) rfl).2.1,
   (((Put_path_by_declared_size mapCache (InMemoryRepository.repository 1700000000)
      (NewStaticRouter demoConfig).objectRoute demoRegistry emptyWorld brokenBodyRequest).2
      (by decide)).2.2) (.other "unexpected EOF") rfl⟩

/-! ## C4: `Get` on a cache hit, and `Get` without an ACTIVE entry -/

section Get
variable {κ μ β : Type}

theorem Get_hit (s : Service κ μ β) (w : World κ μ β) (req : GetRequest) (data : Bytes) (c : κ)
    (hc : s.cache.GetObject w.cache (cacheKey req.Env req.Bucket req.Key) = (.ok data, c))
    (hd : data ≠ []) :
    s.Get w req =
      ⟨.ok { Size := data.length, ContentType := "", Body := Body.ofBytes data },
       { w with cache := c }, [.cacheGet (cacheKey req.Env req.Bucket req.Key)]⟩ := by
  have hpos : 0 < data.length := List.length_pos.mpr hd
  simp only [Service.Get, hc, hpos, if_true]

theorem Get_miss (s : Service κ μ β) (w : World κ μ β) (req : GetRequest)
    (hc : ∀ data, (s.cache.GetObject w.cache (cacheKey req.Env req.Bucket req.Key)).1
            = .ok data → data = []) :
    s.Get w req =
      s.getMiss
        { w with cache := (s.cache.GetObject w.cache (cacheKey req.Env req.Bucket req.Key)).2 }
        (cacheKey req.Env req.Bucket req.Key)
        [.cacheGet (cacheKey req.Env req.Bucket req.Key)] req := by
  unfold Service.Get
  simp only
  split
  · rename_i data hdata
    have := hc data hdata
    subst this
    simp
  · rfl

theorem getMiss_meta_error (s : Service κ μ β) (w : World κ μ β) (ck : String)
    (c1 : List Call) (req : GetRequest) (e : Error) (m : μ)
    (hm : s.metaRepo.GetObject w.metaRepo req.Env req.LogicalRegion req.Bucket req.Key
            = (.error e, m)) :
    s.getMiss w ck c1 req =
      ⟨.error e, { w with metaRepo := m },
       c1 ++ [.metaGet req.Env req.LogicalRegion req.Bucket req.Key]⟩ := by
  simp only [Service.getMiss, hm]

/-- C4: when the cache lookup under the cache key of the address answers a non-empty
    value `data` without error, `Get` succeeds with `Size = len(data)`, an empty
    `ContentType` and a body that yields exactly `data`; the only call it makes is that
    cache lookup, so the metadata store and the backends are neither read nor written
    and their states are unchanged; and any service with the same cache, whatever its
    metadata store, router, registry and their states, returns the same result. -/
theorem Get_cache_hit (s : Service κ μ β) (w : World κ μ β) (req : GetRequest) (data : Bytes)
    (c : κ)
    (hc : s.cache.GetObject w.cache (cacheKey req.Env req.Bucket req.Key) = (.ok data, c))
    (hd : data ≠ []) :
    (s.Get w req).result
      = .ok { Size := data.length, ContentType := "", Body := Body.ofBytes data } ∧
    (s.Get w req).calls = [.cacheGet (cacheKey req.Env req.Bucket req.Key)] ∧
    (s.Get w req).world.metaRepo = w.metaRepo ∧
    (s.Get w req).world.store = w.store ∧
    (s.Get w req).world.cache = c ∧
    ∀ (μ' β' : Type) (s' : Service κ μ' β') (w' : World κ μ' β'),
      s'.cache = s.cache → w'.cache = w.cache →
      (s'.Get w' req).result = (s.Get w req).result ∧
      (s'.Get w' req).calls = (s.Get w req).calls ∧
      (s'.Get w' req).world.metaRepo = w'.metaRepo ∧
      (s'.Get w' req).world.store = w'.store := by
  rw [Get_hit s w req data c hc hd]
  refine ⟨rfl, rfl, rfl, rfl, rfl, ?_⟩
  intro μ' β' s' w' hs hw
  rw [Get_hit s' w' req data c (by rw [hs, hw]; exact hc) hd]
  exact ⟨rfl, rfl, rfl, rfl⟩

/-- Witness of C4: with no route and no backend configured, a get whose address is in
    the cache returns the cached bytes. -/
theorem Get_cache_hit_witness :
    mapCache.GetObject cachedWorld.cache (cacheKey "prod" "assets" "a.png")
      = (.ok payload, cachedWorld.cache) ∧
    (bareService.Get cachedWorld demoAddress).result
      = .ok { Size := 5, ContentType := "", Body := Body.ofBytes payload } ∧
    (bareService.Get cachedWorld demoAddress).calls = [.cacheGet "obj:prod:assets:a.png"] :=
  ⟨by decide,
   (Get_cache_hit bareService cachedWorld demoAddress payload cachedWorld.cache (by decide)
      (by decide)).1,
   (Get_cache_hit bareService cachedWorld demoAddress payload cachedWorld.cache (by decide)
      (by decide)).2.1⟩

/-- On a cache miss (the cache lookup fails or answers an empty value), when the map of
    the in-memory metadata store has no entry under the key `makeKey` of the address, or
    has one whose status is `DELETED`, `Get` fails with `ErrNotFound`; the calls it makes
    are the cache lookup and the metadata lookup only, so no registry lookup and no
    backend read happens, and the metadata store and the backend state are unchanged,
    whatever the backend holds.  The condition is on the key, not on the address: see
    `Get_returns_record_of_other_address`. -/
theorem Get_without_active_entry (cache : RedisCache κ) (now : Time) (router : ObjectRoute)
    (registry : ProviderRegistry β) (w : World κ InMemoryRepository β) (req : GetRequest)
    (hmiss : ∀ data, (cache.GetObject w.cache (cacheKey req.Env req.Bucket req.Key)).1
              = .ok data → data = [])
    (hrec : w.metaRepo.data.get (makeKey req.Env req.LogicalRegion req.Bucket req.Key) = none ∨
            ∃ o, w.metaRepo.data.get (makeKey req.Env req.LogicalRegion req.Bucket req.Key)
                   = some o ∧ o.Status = "DELETED") :
    ((NewService cache (InMemoryRepository.repository now) router registry).Get w req).result
      = .error .ErrNotFound ∧
    ((NewService cache (InMemoryRepository.repository now) router registry).Get w req).calls
      = [.cacheGet (cacheKey req.Env req.Bucket req.Key),
         .metaGet req.Env req.LogicalRegion req.Bucket req.Key] ∧
    ((NewService cache (InMemoryRepository.repository now) router registry).Get w req).calls.filter
        Call.isBackend = [] ∧
    ((NewService cache (InMemoryRepository.repository now) router registry).Get w req).world.store
      = w.store ∧
    ((NewService cache (InMemoryRepository.repository now) router registry).Get w req).world.metaRepo
      = w.metaRepo := by
  have hget : w.metaRepo.GetObject req.Env req.LogicalRegion req.Bucket req.Key
      = .error .ErrNotFound := by
    unfold InMemoryRepository.GetObject
    rcases hrec with h | ⟨o, h, hd⟩
    · simp [h]
    · simp [h, hd]
  have hm : (NewService cache (InMemoryRepository.repository now) router registry).metaRepo.GetObject
      w.metaRepo req.Env req.LogicalRegion req.Bucket req.Key = (.error .ErrNotFound, w.metaRepo) := by
    simp [NewService, InMemoryRepository.repository, hget]
  rw [Get_miss _ w req hmiss]
  rw [getMiss_meta_error _
    { w with cache := ((NewService cache (InMemoryRepository.repository now) router
        registry).cache.GetObject w.cache (cacheKey req.Env req.Bucket req.Key)).2 }
    _ _ req _ _ hm]
  exact ⟨rfl, rfl, rfl, rfl, rfl⟩

/-- An instance: the record is soft-deleted and the object is still in the backend; the
    get fails with `ErrNotFound`. -/
theorem Get_without_active_entry_example :
    (∀ data, (mapCache.GetObject deletedWorld.cache (cacheKey "prod" "assets" "a.png")).1
        = .ok data → data = []) ∧
    (∃ o, deletedWorld.metaRepo.data.get (makeKey "prod" "us" "assets" "a.png") = some o ∧
        o.Status = "DELETED") ∧
    deletedWorld.store ≠ [] ∧
    (demoService.Get deletedWorld demoAddress).result = .error .ErrNotFound :=
  ⟨(fun _ h => by cases h), ⟨deletedRecord, by decide, by decide⟩, by decide,
   (Get_without_active_entry mapCache 1700000000 (NewStaticRouter demoConfig).objectRoute
      demoRegistry deletedWorld demoAddress (fun _ h => by cases h)
      (Or.inr ⟨deletedRecord, by decide, by decide⟩)).1⟩

end Get

/-! ## C6: two puts to the same address -/

/-- C6, evaluated on the configured gateway with the in-memory metadata store: the
    first put to `prod/us/assets/a.png` succeeds and leaves one ACTIVE record with
    `Version = 1`; the second put to the same address, a minute later, succeeds as well
    and leaves one ACTIVE record for the address, whose `Version` is again 1 and not 2:
    `PutObject` stores the submitted record in place of the old one and never reads the
    version of the row it replaces. -/
theorem put_twice_version_stays_one :
    (demoService.Put emptyWorld smallRequest).result = .ok ⟨"etag-1", StoreRedisObject, 5⟩ ∧
    ((demoService.Put emptyWorld smallRequest).world.metaRepo.data.map
        (fun e => (e.1, e.2.Status, e.2.Version)))
      = [("prod|us|assets|a.png", "ACTIVE", 1)] ∧
    (laterService.Put (demoService.Put emptyWorld smallRequest).world smallRequest).result
      = .ok ⟨"etag-1", StoreRedisObject, 5⟩ ∧
    ((laterService.Put (demoService.Put emptyWorld smallRequest).world
        smallRequest).world.metaRepo.data.map
        (fun e => (e.1, e.2.Status, e.2.Version, e.2.UpdatedAt)))
      = [("prod|us|assets|a.png", "ACTIVE", 1, 1700000060)] ∧
    ((laterService.Put (demoService.Put emptyWorld smallRequest).world
        smallRequest).world.metaRepo.GetObject "prod" "us" "assets" "a.png").map
        (fun o => o.Version)
      = .ok 1 := by
  refine ⟨by decide, by decide, by decide, by decide, by decide⟩

/-! ## C8: the cache key -/

section Keys
variable {κ μ β : Type}

theorem getMiss_calls_prefix (s : Service κ μ β) (w : World κ μ β) (ck : String)
    (c1 : List Call) (req : GetRequest) :
    ∃ post, (s.getMiss w ck c1 req).calls = c1 ++ post ∧
      ∀ c ∈ post, c.cacheKeyOf = none ∨ c.cacheKeyOf = some ck := by
  unfold Service.getMiss
  simp only [List.append_assoc]
  repeat' split
  all_goals exact ⟨_, rfl, by simp [Call.cacheKeyOf]⟩

theorem Get_calls_prefix (s : Service κ μ β) (w : World κ μ β) (req : GetRequest) :
    ∃ post, (s.Get w req).calls = .cacheGet (cacheKey req.Env req.Bucket req.Key) :: post ∧
      ∀ c ∈ post, c.cacheKeyOf = none ∨
        c.cacheKeyOf = some (cacheKey req.Env req.Bucket req.Key) := by
  unfold Service.Get
  simp only
  split
  · split
    · exact ⟨[], rfl, by simp⟩
    · exact getMiss_calls_prefix s _ _ [_] req
  · exact getMiss_calls_prefix s _ _ [_] req

theorem Put_calls_cacheKeyOf (s : Service κ μ β) (w : World κ μ β) (req : PutRequest)
    (c : Call) (hc : c ∈ (s.Put w req).calls) (k : String) (hk : c.cacheKeyOf = some k) :
    k = cacheKey req.Env req.Bucket req.Key := by
  rw [Put_eq] at hc
  split at hc
  · rw [putSmall_eq] at hc
    split at hc
    · cases hc
    · obtain ⟨post, hcalls, hpost⟩ := putTail_calls_prefix s
        { w with cache := s.cacheAfterSet w req.defaulted } [s.cacheSetCall req.defaulted]
        req.defaulted (Body.ofBytes req.defaulted.Body.data) req.defaulted.Body.data.length
        StoreRedisObject
      rw [hcalls] at hc
      rcases List.mem_append.mp hc with h | h
      · rw [List.mem_singleton] at h
        subst h
        simpa [Service.cacheSetCall, Call.cacheKeyOf, eq_comm] using hk
      · rw [(hpost c h).2.1] at hk
        cases hk
  · rw [putLarge_eq] at hc
    obtain ⟨post, hcalls, hpost⟩ := putTail_calls_prefix s w [] req.defaulted
      req.defaulted.Body req.defaulted.Size StoreObjectOnly
    rw [hcalls, List.nil_append] at hc
    rw [(hpost c hc).2.1] at hk
    cases hk

/-- C8 fails as stated: for `env = prod`, `bucket = assets`, `key = a.png` the cache key
    is `obj:prod:assets:a.png`, not `prod:assets:a.png`. -/
theorem cacheKey_is_not_the_plain_join :
    cacheKey "prod" "assets" "a.png" = "obj:prod:assets:a.png" ∧
    cacheKey "prod" "assets" "a.png" ≠ "prod" ++ ":" ++ "assets" ++ ":" ++ "a.png" ∧
    (demoService.Put emptyWorld smallRequest).calls.filterMap Call.cacheKeyOf
      = ["obj:prod:assets:a.png"] ∧
    (demoService.Get emptyWorld demoAddress).calls.filterMap Call.cacheKeyOf
      = ["obj:prod:assets:a.png"] := by
  refine ⟨by decide, by decide, by decide, by decide⟩

/-- C8 as amended: the key of every cache call that `Put` or `Get` makes is
    `"obj:" ++ env ++ ":" ++ bucket ++ ":" ++ key`; `Get` always starts with the lookup
    of that key; the key does not mention the logical region, so two addresses that
    differ in the region only use the same key. -/
theorem cacheKey_used (s : Service κ μ β) (w : World κ μ β) (preq : PutRequest)
    (greq : GetRequest) :
    (∀ c ∈ (s.Put w preq).calls, ∀ k, c.cacheKeyOf = some k →
        k = "obj:" ++ preq.Env ++ ":" ++ preq.Bucket ++ ":" ++ preq.Key) ∧
    (∀ c ∈ (s.Get w greq).calls, ∀ k, c.cacheKeyOf = some k →
        k = "obj:" ++ greq.Env ++ ":" ++ greq.Bucket ++ ":" ++ greq.Key) ∧
    (s.Get w greq).calls.head?
      = some (.cacheGet ("obj:" ++ greq.Env ++ ":" ++ greq.Bucket ++ ":" ++ greq.Key)) ∧
    (∀ env region region' bucket key,
        (s.Get w ⟨env, region, bucket, key⟩).calls.head?
          = (s.Get w ⟨env, region', bucket, key⟩).calls.head?) := by
  have hget : ∀ r : GetRequest, (s.Get w r).calls.head?
      = some (.cacheGet ("obj:" ++ r.Env ++ ":" ++ r.Bucket ++ ":" ++ r.Key)) := by
    intro r
    obtain ⟨post, hcalls, -⟩ := Get_calls_prefix s w r
    rw [hcalls]
    rfl
  refine ⟨fun c hc k hk => Put_calls_cacheKeyOf s w preq c hc k hk, ?_, hget greq, ?_⟩
  · intro c hc k hk
    obtain ⟨post, hcalls, hpost⟩ := Get_calls_prefix s w greq
    rw [hcalls] at hc
    rcases List.mem_cons.mp hc with h | h
    · subst h
      simpa [Call.cacheKeyOf, cacheKey, eq_comm] using hk
    · rcases hpost c h with h' | h'
      · rw [h'] at hk; cases hk
      · rw [h'] at hk
        simpa [cacheKey, eq_comm] using hk
  · intro env region region' bucket key
    rw [hget, hget]

/-- Witness of the amended C8: the cache write of a small-path put on the configured
    gateway uses the key `obj:prod:assets:a.png`. -/
theorem cacheKey_used_witness :
    Call.cacheSet "obj:prod:assets:a.png" payload defaultCacheTTL
      ∈ (demoService.Put emptyWorld smallRequest).calls ∧
    "obj:prod:assets:a.png" = "obj:" ++ "prod" ++ ":" ++ "assets" ++ ":" ++ "a.png" :=
  ⟨by decide,
   (cacheKey_used demoService emptyWorld smallRequest demoAddress).1
      (Call.cacheSet "obj:prod:assets:a.png" payload defaultCacheTTL) (by decide)
      "obj:prod:assets:a.png" rfl⟩

/-! ## C9: the physical key -/

theorem putTail_backendPut_mem (s : Service κ μ β) (w : World κ μ β) (pre : List Call)
    (req : PutRequest) (body : Body) (size : Int) (mode : StoreBackend) (route : RouteResult)
    (backend : ObjectStorage β)
    (hr : s.router.ResolveRoute req.routeKey = .ok route)
    (hg : s.providers.Get route.ProviderName = some backend) :
    Call.backendPut route.ProviderName (req.location route) body size req.options
      ∈ (s.putTail w pre req body size mode).calls := by
  rcases hp : backend.PutObject w.store (req.location route) body size req.options with
    ⟨e | etag, st⟩
  · rw [putTail_backend_error s w pre req body size mode route backend e st hr hg hp]
    simp
  · rcases hm : s.metaRepo.PutObject w.metaRepo (some (req.record route size mode etag))
      with ⟨_ | e, m⟩
    · rw [putTail_success s w pre req body size mode route backend etag st m hr hg hp hm]
      simp
    · rw [putTail_meta_error s w pre req body size mode route backend etag st e m hr hg hp hm]
      simp

theorem putTail_metaPut_mem (s : Service κ μ β) (w : World κ μ β) (pre : List Call)
    (req : PutRequest) (body : Body) (size : Int) (mode : StoreBackend) (resp : PutResponse)
    (h : (s.putTail w pre req body size mode).result = .ok resp) :
    ∃ route, s.router.ResolveRoute req.routeKey = .ok route ∧
      Call.metaPut (req.record route size mode resp.ETag)
        ∈ (s.putTail w pre req body size mode).calls := by
  obtain ⟨route, backend, etag, st, m, hr, hg, hp, hm, rfl⟩ := putTail_ok_inv _ _ _ _ _ _ _ _ h
  refine ⟨route, hr, ?_⟩
  rw [putTail_success s w pre req body size mode route backend etag st m hr hg hp hm]
  simp

/-- C9: every physical key that a `Put` hands to a backend or submits to the metadata
    store inside a record is `env ++ "/" ++ logicalRegion ++ "/" ++ bucket ++ "/" ++ key`,
    on either path.  The put reaches the backend as soon as the body was buffered (small
    path), the route resolved and the provider is registered, and the location it then
    hands over is made of the route's provider type, region and bucket and of that key;
    a put that succeeds has submitted a record for the address with that key. -/
theorem physicalKey_of_put (s : Service κ μ β) (w : World κ μ β) (req : PutRequest) :
    (∀ c ∈ (s.Put w req).calls, ∀ k, c.physicalKeyOf = some k →
        k = req.Env ++ "/" ++ req.LogicalRegion ++ "/" ++ req.Bucket ++ "/" ++ req.Key) ∧
    (∀ route backend, (s.isSmall req → req.Body.err = none) →
        s.router.ResolveRoute req.defaulted.routeKey = .ok route →
        s.providers.Get route.ProviderName = some backend →
        Call.backendPut route.ProviderName
            { ProviderType := route.ProviderType, ProviderRegion := route.ProviderRegion,
              ProviderBucket := route.ProviderBucket,
              PhysicalKey := req.Env ++ "/" ++ req.LogicalRegion ++ "/" ++ req.Bucket ++ "/"
                ++ req.Key }
            (s.putBody req) (s.putSize req) req.defaulted.options
          ∈ (s.Put w req).calls) ∧
    (∀ resp, (s.Put w req).result = .ok resp →
        ∃ o, Call.metaPut o ∈ (s.Put w req).calls ∧
          o.Env = req.Env ∧ o.LogicalRegion = req.LogicalRegion ∧ o.Bucket = req.Bucket ∧
          o.ObjectKey = req.Key ∧
          o.PhysicalKey = req.Env ++ "/" ++ req.LogicalRegion ++ "/" ++ req.Bucket ++ "/"
            ++ req.Key) := by
  have hkey : buildPhysicalKey req.defaulted
      = req.Env ++ "/" ++ req.LogicalRegion ++ "/" ++ req.Bucket ++ "/" ++ req.Key := by
    simp [buildPhysicalKey]
  by_cases hb : s.isSmall req → req.Body.err = none
  · rw [Put_eq_tail s w req hb]
    refine ⟨?_, ?_, ?_⟩
    · intro c hc k hk
      obtain ⟨post, hcalls, hpost⟩ := putTail_calls_prefix s (s.putWorld w req) (s.putPre req)
        req.defaulted (s.putBody req) (s.putSize req) (s.putMode req)
      rw [hcalls] at hc
      rcases List.mem_append.mp hc with h | h
      · unfold Service.putPre at h
        split at h
        · rw [List.mem_singleton] at h
          subst h
          cases hk
        · cases h
      · rw [← hkey]
        exact (hpost c h).2.2 k hk
    · intro route backend _ hr hg
      have := putTail_backendPut_mem s (s.putWorld w req) (s.putPre req) req.defaulted
        (s.putBody req) (s.putSize req) (s.putMode req) route backend hr hg
      simpa [PutRequest.location, hkey] using this
    · intro resp h
      obtain ⟨route, -, hmem⟩ := putTail_metaPut_mem s _ _ _ _ _ _ resp h
      exact ⟨_, hmem, by simp [PutRequest.record], by simp [PutRequest.record],
        by simp [PutRequest.record], by simp [PutRequest.record],
        by simp [PutRequest.record, hkey]⟩
  · have hs : s.isSmall req := by
      by_contra hn
      exact hb (fun h => absurd h hn)
    obtain ⟨e, he⟩ : ∃ e, req.Body.err = some e := by
      cases hbe : req.Body.err with
      | none => exact absurd (fun _ => hbe) hb
      | some e => exact ⟨e, rfl⟩
    rw [Put_body_error s w req e hs he]
    exact ⟨(fun c hc => by cases hc), (fun _ _ h => absurd h hb), (fun resp h => by cases h)⟩

/-- Witness of C9 on the configured gateway: the small-path put hands the location with
    key `prod/us/assets/a.png` to the backend of `p1`. -/
theorem physicalKey_of_put_witness :
    Call.backendPut "p1" ⟨"AWS_S3", "us-east-1", "phys-assets", "prod/us/assets/a.png"⟩
        (Body.ofBytes payload) 5 ⟨"image/png", [], "HOT"⟩
      ∈ (demoService.Put emptyWorld smallRequest).calls ∧
    "prod/us/assets/a.png" = "prod" ++ "/" ++ "us" ++ "/" ++ "assets" ++ "/" ++ "a.png" :=
  ⟨by decide,
   (physicalKey_of_put demoService emptyWorld smallRequest).1
     (Call.backendPut "p1" ⟨"AWS_S3", "us-east-1", "phys-assets", "prod/us/assets/a.png"⟩
        (Body.ofBytes payload) 5 ⟨"image/png", [], "HOT"⟩) (by decide)
     "prod/us/assets/a.png" rfl⟩

end Keys

/-! ## C7: which failures fail a put -/

section Failure
variable {κ μ β : Type}

/-- The outcome of `putTail` does not depend on the cache, on its state or on the calls
    made before it. -/
theorem putTail_indep {κ' : Type} (s : Service κ μ β) (s' : Service κ' μ β) (w : World κ μ β)
    (w' : World κ' μ β) (pre pre' : List Call) (req : PutRequest) (body : Body) (size : Int)
    (mode : StoreBackend) (h1 : s'.metaRepo = s.metaRepo) (h2 : s'.router = s.router)
    (h3 : s'.providers = s.providers) (h4 : w'.metaRepo = w.metaRepo)
    (h5 : w'.store = w.store) :
    (s'.putTail w' pre' req body size mode).result = (s.putTail w pre req body size mode).result ∧
    (s'.putTail w' pre' req body size mode).world.store
      = (s.putTail w pre req body size mode).world.store ∧
    (s'.putTail w' pre' req body size mode).world.metaRepo
      = (s.putTail w pre req body size mode).world.metaRepo ∧
    ∃ post, (s.putTail w pre req body size mode).calls = pre ++ post ∧
      (s'.putTail w' pre' req body size mode).calls = pre' ++ post ∧
      ∀ c ∈ post, c.isCacheSet = false := by
  unfold Service.putTail
  rw [h1, h2, h3, h4, h5]
  repeat' split
  all_goals simp_all [Call.isCacheSet]

theorem Put_cache_indep {κ' : Type} (s : Service κ μ β) (s' : Service κ' μ β)
    (w : World κ μ β) (w' : World κ' μ β) (req : PutRequest)
    (h1 : s'.metaRepo = s.metaRepo) (h2 : s'.router = s.router)
    (h3 : s'.providers = s.providers) (h4 : s'.smallFileThreshold = s.smallFileThreshold)
    (h5 : w'.metaRepo = w.metaRepo) (h6 : w'.store = w.store) :
    (s'.Put w' req).result = (s.Put w req).result ∧
    (s'.Put w' req).world.store = (s.Put w req).world.store ∧
    (s'.Put w' req).world.metaRepo = (s.Put w req).world.metaRepo ∧
    (s'.Put w' req).calls.filter (fun c => !c.isCacheSet)
      = (s.Put w req).calls.filter (fun c => !c.isCacheSet) := by
  have hsmall : s'.isSmall req ↔ s.isSmall req := by
    unfold Service.isSmall; rw [h4]
  have hbody : s'.putBody req = s.putBody req := by
    unfold Service.putBody; simp only [hsmall]
  have hsize : s'.putSize req = s.putSize req := by
    unfold Service.putSize; simp only [hsmall]
  have hmode : s'.putMode req = s.putMode req := by
    unfold Service.putMode; simp only [hsmall]
  have hpre : ∀ (κ₀ : Type) (s₀ : Service κ₀ μ β),
      (s₀.putPre req).filter (fun c => !c.isCacheSet) = [] := by
    intro κ₀ s₀
    unfold Service.putPre
    split <;> simp [Service.cacheSetCall, Call.isCacheSet]
  by_cases hb : s.isSmall req → req.Body.err = none
  · rw [Put_eq_tail s w req hb, Put_eq_tail s' w' req (fun h => hb (hsmall.mp h)),
      hbody, hsize, hmode]
    obtain ⟨hres, hst, hm, post, hc, hc', hpost⟩ := putTail_indep s s' (s.putWorld w req)
      (s'.putWorld w' req) (s.putPre req) (s'.putPre req) req.defaulted (s.putBody req)
      (s.putSize req) (s.putMode req) h1 h2 h3 (by simp [h5]) (by simp [h6])
    refine ⟨hres, hst, hm, ?_⟩
    rw [hc, hc', List.filter_append, List.filter_append, hpre, hpre]
  · have hs : s.isSmall req := by
      by_contra hn
      exact hb (fun h => absurd h hn)
    obtain ⟨e, he⟩ : ∃ e, req.Body.err = some e := by
      cases hbe : req.Body.err with
      | none => exact absurd (fun _ => hbe) hb
      | some e => exact ⟨e, rfl⟩
    rw [Put_body_error s w req e hs he, Put_body_error s' w' req e (hsmall.mpr hs) he]
    exact ⟨rfl, h6, h5, rfl⟩

/-- The required steps of a put, as a proposition: one of them fails. -/
theorem Put_fails_iff (s : Service κ μ β) (w : World κ μ β) (req : PutRequest) :
    (∃ e, (s.Put w req).result = .error e) ↔
      (s.isSmall req ∧ req.Body.err ≠ none) ∨
      (∃ e, s.router.ResolveRoute req.defaulted.routeKey = .error e) ∨
      (∃ route, s.router.ResolveRoute req.defaulted.routeKey = .ok route ∧
        (s.providers.Get route.ProviderName = none ∨
         ∃ backend, s.providers.Get route.ProviderName = some backend ∧
          ((∃ e st, backend.PutObject w.store (req.defaulted.location route) (s.putBody req)
              (s.putSize req) req.defaulted.options = (.error e, st)) ∨
           ∃ etag st, backend.PutObject w.store (req.defaulted.location route) (s.putBody req)
              (s.putSize req) req.defaulted.options = (.ok etag, st) ∧
             ∃ e m, s.metaRepo.PutObject w.metaRepo
               (some (req.defaulted.record route (s.putSize req) (s.putMode req) etag))
               = (some e, m)))) := by
  by_cases hb : s.isSmall req → req.Body.err = none
  · have hnb : ¬(s.isSmall req ∧ req.Body.err ≠ none) := fun h => h.2 (hb h.1)
    rw [Put_eq_tail s w req hb]
    cases hr : s.router.ResolveRoute req.defaulted.routeKey with
    | error e =>
      rw [putTail_route_error _ _ _ _ _ _ _ e hr]
      exact ⟨fun _ => Or.inr (Or.inl ⟨e, rfl⟩), fun _ => ⟨e, rfl⟩⟩
    | ok route =>
      cases hg : s.providers.Get route.ProviderName with
      | none =>
        rw [putTail_no_backend _ _ _ _ _ _ _ route hr hg]
        exact ⟨fun _ => Or.inr (Or.inr ⟨route, rfl, Or.inl hg⟩), fun _ => ⟨_, rfl⟩⟩
      | some backend =>
        rcases hp : backend.PutObject w.store (req.defaulted.location route) (s.putBody req)
            (s.putSize req) req.defaulted.options with ⟨e | etag, st⟩
        · rw [putTail_backend_error _ _ _ _ _ _ _ route backend e st hr hg
            (by rw [putWorld_store]; exact hp)]
          exact ⟨fun _ => Or.inr (Or.inr ⟨route, rfl, Or.inr ⟨backend, hg, Or.inl ⟨e, st, hp⟩⟩⟩),
            fun _ => ⟨e, rfl⟩⟩
        · rcases hm : s.metaRepo.PutObject w.metaRepo
              (some (req.defaulted.record route (s.putSize req) (s.putMode req) etag))
            with ⟨_ | e, m⟩
          · rw [putTail_success _ _ _ _ _ _ _ route backend etag st m hr hg
              (by rw [putWorld_store]; exact hp) (by rw [putWorld_metaRepo]; exact hm)]
            constructor
            · rintro ⟨e, he⟩
              cases he
            · rintro (h | ⟨e, he⟩ | ⟨route', hr', h⟩)
              · exact absurd h hnb
              · cases he
              · cases hr'
                rcases h with h | ⟨backend', hg', h⟩
                · rw [hg] at h; cases h
                · rw [hg] at hg'
                  cases hg'
                  rcases h with ⟨e, st', h⟩ | ⟨etag', st', h, e, m', h'⟩
                  · rw [hp] at h; cases h
                  · rw [hp] at h
                    cases h
                    rw [hm] at h'
                    cases h'
          · rw [putTail_meta_error _ _ _ _ _ _ _ route backend etag st e m hr hg
              (by rw [putWorld_store]; exact hp) (by rw [putWorld_metaRepo]; exact hm)]
            exact ⟨fun _ => Or.inr (Or.inr ⟨route, rfl, Or.inr ⟨backend, hg,
              Or.inr ⟨etag, st, hp, e, m, hm⟩⟩⟩), fun _ => ⟨e, rfl⟩⟩
  · have hs : s.isSmall req := by
      by_contra hn
      exact hb (fun h => absurd h hn)
    obtain ⟨e, he⟩ : ∃ e, req.Body.err = some e := by
      cases hbe : req.Body.err with
      | none => exact absurd (fun _ => hbe) hb
      | some e => exact ⟨e, rfl⟩
    rw [Put_body_error s w req e hs he]
    exact ⟨fun _ => Or.inl ⟨hs, by rw [he]; exact fun h => by cases h⟩, fun _ => ⟨e, rfl⟩⟩

/-- C7: a put fails if and only if one of its required steps fails (first conjunct),
    with the error of the first failing step, and runs no step after it.  In order: (1) on the small path, a
    body that cannot be read to its end fails the put before any call is made; otherwise
    (2) a route that does not resolve, (3) a routed provider that is not registered,
    (4) a failing backend put and (5) a failing metadata upsert each end the put with
    that error, the call log ending at the failing step and the collaborator states
    being those left by the steps run so far; (6) when all of them succeed the put
    succeeds.  The cache write of the small path is not among them: with any other cache,
    in any state, failing or not, the result, the backend state, the metadata state and
    the calls other than cache writes are the same. -/
theorem Put_failure_propagation (s : Service κ μ β) (w : World κ μ β) (req : PutRequest) :
    ((∃ e, (s.Put w req).result = .error e) ↔
      (s.isSmall req ∧ req.Body.err ≠ none) ∨
      (∃ e, s.router.ResolveRoute req.defaulted.routeKey = .error e) ∨
      (∃ route, s.router.ResolveRoute req.defaulted.routeKey = .ok route ∧
        (s.providers.Get route.ProviderName = none ∨
         ∃ backend, s.providers.Get route.ProviderName = some backend ∧
          ((∃ e st, backend.PutObject w.store (req.defaulted.location route) (s.putBody req)
              (s.putSize req) req.defaulted.options = (.error e, st)) ∨
           ∃ etag st, backend.PutObject w.store (req.defaulted.location route) (s.putBody req)
              (s.putSize req) req.defaulted.options = (.ok etag, st) ∧
             ∃ e m, s.metaRepo.PutObject w.metaRepo
               (some (req.defaulted.record route (s.putSize req) (s.putMode req) etag))
               = (some e, m))))) ∧
    (∀ e, s.isSmall req → req.Body.err = some e → s.Put w req = ⟨.error e, w, []⟩) ∧
    ((s.isSmall req → req.Body.err = none) →
      (∀ e, s.router.ResolveRoute req.defaulted.routeKey = .error e →
        s.Put w req =
          ⟨.error e, s.putWorld w req, s.putPre req ++ [.resolveRoute req.defaulted.routeKey]⟩) ∧
      (∀ route, s.router.ResolveRoute req.defaulted.routeKey = .ok route →
        (s.providers.Get route.ProviderName = none →
          s.Put w req =
            ⟨.error (.noBackend route.ProviderName), s.putWorld w req,
             s.putPre req ++ [.resolveRoute req.defaulted.routeKey,
                              .registryGet route.ProviderName]⟩) ∧
        (∀ backend, s.providers.Get route.ProviderName = some backend →
          (∀ e st, backend.PutObject w.store (req.defaulted.location route) (s.putBody req)
                (s.putSize req) req.defaulted.options = (.error e, st) →
            s.Put w req =
              ⟨.error e, { s.putWorld w req with store := st },
               s.putPre req ++ [.resolveRoute req.defaulted.routeKey,
                 .registryGet route.ProviderName,
                 .backendPut route.ProviderName (req.defaulted.location route) (s.putBody req)
                   (s.putSize req) req.defaulted.options]⟩) ∧
          (∀ etag st, backend.PutObject w.store (req.defaulted.location route) (s.putBody req)
                (s.putSize req) req.defaulted.options = (.ok etag, st) →
            (∀ e m, s.metaRepo.PutObject w.metaRepo
                  (some (req.defaulted.record route (s.putSize req) (s.putMode req) etag))
                  = (some e, m) →
              s.Put w req =
                ⟨.error e, { s.putWorld w req with store := st, metaRepo := m },
                 s.putPre req ++ [.resolveRoute req.defaulted.routeKey,
                   .registryGet route.ProviderName,
                   .backendPut route.ProviderName (req.defaulted.location route)
                     (s.putBody req) (s.putSize req) req.defaulted.options,
                   .metaPut (req.defaulted.record route (s.putSize req) (s.putMode req)
                     etag)]⟩) ∧
            (∀ m, s.metaRepo.PutObject w.metaRepo
                  (some (req.defaulted.record route (s.putSize req) (s.putMode req) etag))
                  = (none, m) →
              s.Put w req =
                ⟨.ok { ETag := etag, Backend := s.putMode req, Size := s.putSize req },
                 { s.putWorld w req with store := st, metaRepo := m },
                 s.putPre req ++ [.resolveRoute req.defaulted.routeKey,
                   .registryGet route.ProviderName,
                   .backendPut route.ProviderName (req.defaulted.location route)
                     (s.putBody req) (s.putSize req) req.defaulted.options,
                   .metaPut (req.defaulted.record route (s.putSize req) (s.putMode req)
                     etag)]⟩))))) ∧
    (∀ (κ' : Type) (cache' : RedisCache κ') (k' : κ'),
      (Service.Put ⟨cache', s.metaRepo, s.router, s.providers, s.smallFileThreshold, s.cacheTTL⟩
          ⟨k', w.metaRepo, w.store⟩ req).result = (s.Put w req).result ∧
      (Service.Put ⟨cache', s.metaRepo, s.router, s.providers, s.smallFileThreshold, s.cacheTTL⟩
          ⟨k', w.metaRepo, w.store⟩ req).world.store = (s.Put w req).world.store ∧
      (Service.Put ⟨cache', s.metaRepo, s.router, s.providers, s.smallFileThreshold, s.cacheTTL⟩
          ⟨k', w.metaRepo, w.store⟩ req).world.metaRepo = (s.Put w req).world.metaRepo ∧
      (Service.Put ⟨cache', s.metaRepo, s.router, s.providers, s.smallFileThreshold, s.cacheTTL⟩
          ⟨k', w.metaRepo, w.store⟩ req).calls.filter (fun c => !c.isCacheSet)
        = (s.Put w req).calls.filter (fun c => !c.isCacheSet)) := by
  refine ⟨Put_fails_iff s w req, fun e hs hb => Put_body_error s w req e hs hb, ?_, ?_⟩
  · intro hb
    rw [Put_eq_tail s w req hb]
    refine ⟨fun e hr => putTail_route_error _ _ _ _ _ _ _ e hr, fun route hr => ⟨fun hg => ?_,
      fun backend hg => ⟨fun e st hp => ?_, fun etag st hp => ⟨fun e m hm => ?_, fun m hm => ?_⟩⟩⟩⟩
    · exact putTail_no_backend _ _ _ _ _ _ _ route hr hg
    · exact putTail_backend_error _ _ _ _ _ _ _ route backend e st hr hg
        (by rw [putWorld_store]; exact hp)
    · exact putTail_meta_error _ _ _ _ _ _ _ route backend etag st e m hr hg
        (by rw [putWorld_store]; exact hp) (by rw [putWorld_metaRepo]; exact hm)
    · exact putTail_success _ _ _ _ _ _ _ route backend etag st m hr hg
        (by rw [putWorld_store]; exact hp) (by rw [putWorld_metaRepo]; exact hm)
  · intro κ' cache' k'
    exact Put_cache_indep s _ w _ req rfl rfl rfl rfl rfl rfl

/-- Witness of C7 on the configured gateway: the class `COLD` has no route, and the put
    fails with the router's error after the cache write and the route resolution; and
    a put through a cache whose writes fail returns what the put through a working cache
    returns. -/
theorem Put_failure_propagation_witness :
    demoService.router.ResolveRoute unroutedRequest.defaulted.routeKey
      = .error (.noRoute ⟨"prod", "us", "assets", "COLD"⟩) ∧
    demoService.Put emptyWorld unroutedRequest
      = ⟨.error (.noRoute ⟨"prod", "us", "assets", "COLD"⟩),
         demoService.putWorld emptyWorld unroutedRequest,
         demoService.putPre unroutedRequest
           ++ [.resolveRoute unroutedRequest.defaulted.routeKey]⟩ ∧
    (Service.Put ⟨brokenCache, demoService.metaRepo, demoService.router, demoService.providers,
        demoService.smallFileThreshold, demoService.cacheTTL⟩
        ⟨(), emptyWorld.metaRepo, emptyWorld.store⟩ smallRequest).result
      = (demoService.Put emptyWorld smallRequest).result :=
  ⟨by decide,
   ((Put_failure_propagation demoService emptyWorld unroutedRequest).2.2.1 (by decide)).1
      (.noRoute ⟨"prod", "us", "assets", "COLD"⟩) (by decide),
   ((Put_failure_propagation demoService emptyWorld smallRequest).2.2.2 Unit brokenCache ()).1⟩

end Failure

/-! ## C10: the routing table -/

theorem GoMap.get_set {V : Type} (m : GoMap V) (k j : String) (v : V) :
    (m.set k v).get j = if k = j then some v else m.get j := by
  induction m with
  | nil => simp [GoMap.set, GoMap.get]
  | cons e t ih =>
    obtain ⟨k', v'⟩ := e
    by_cases hk : k' = k
    · subst hk
      by_cases hj : k' = j <;> simp [GoMap.set, GoMap.get, hj]
    · by_cases hj : k' = j
      · subst hj
        have : ¬ k = k' := fun h => hk h.symm
        simp [GoMap.set, GoMap.get, hk, this]
      · simp [GoMap.set, GoMap.get, hk, hj, ih]

theorem lastProvider_cons (p : ProviderConfig) (rest : List ProviderConfig) (name : String) :
    lastProvider (p :: rest) name =
      match lastProvider rest name with
      | some q => some q
      | none => if p.Name = name then some p else none := rfl

theorem foldl_set_get (ps : List ProviderConfig) (acc : GoMap ProviderConfig) (name : String) :
    (ps.foldl (fun m p => m.set p.Name p) acc).get name =
      match lastProvider ps name with
      | some q => some q
      | none => acc.get name := by
  induction ps generalizing acc with
  | nil => simp [lastProvider]
  | cons p rest ih =>
    rw [List.foldl_cons, ih, GoMap.get_set, lastProvider_cons]
    cases lastProvider rest name with
    | some q => rfl
    | none => by_cases hp : p.Name = name <;> simp [hp]

theorem providerMap_get (ps : List ProviderConfig) (name : String) :
    (providerMap ps).get name = lastProvider ps name := by
  unfold providerMap
  rw [foldl_set_get]
  cases lastProvider ps name <;> rfl

theorem lastProvider_some (ps : List ProviderConfig) (name : String) (p : ProviderConfig)
    (h : lastProvider ps name = some p) :
    p.Name = name ∧ ∃ l1 l2, ps = l1 ++ p :: l2 ∧ ∀ q ∈ l2, q.Name ≠ name := by
  induction ps with
  | nil => cases h
  | cons a rest ih =>
    unfold lastProvider at h
    cases hrest : lastProvider rest name with
    | some q =>
      rw [hrest] at h
      cases h
      obtain ⟨hn, l1, l2, hl, hq⟩ := ih hrest
      exact ⟨hn, a :: l1, l2, by rw [hl]; rfl, hq⟩
    | none =>
      rw [hrest] at h
      by_cases ha : a.Name = name
      · simp only [ha, if_true, Option.some.injEq] at h
        subst h
        refine ⟨ha, [], rest, rfl, ?_⟩
        intro q hq hqn
        clear ih
        induction rest with
        | nil => cases hq
        | cons b t iht =>
          unfold lastProvider at hrest
          cases ht : lastProvider t name with
          | some x => rw [ht] at hrest; cases hrest
          | none =>
            rw [ht] at hrest
            by_cases hb : b.Name = name
            · simp [hb] at hrest
            · rcases List.mem_cons.mp hq with rfl | hq'
              · exact hb hqn
              · exact iht ht hq'
      · simp [ha] at h

theorem lastProvider_none (ps : List ProviderConfig) (name : String) :
    lastProvider ps name = none ↔ ∀ p ∈ ps, p.Name ≠ name := by
  induction ps with
  | nil => simp [lastProvider]
  | cons a rest ih =>
    unfold lastProvider
    cases hrest : lastProvider rest name with
    | some q =>
      simp only [false_iff, reduceCtorEq]
      intro hall
      exact absurd (ih.mpr (fun p hp => hall p (List.mem_cons_of_mem _ hp))) (by simp [hrest])
    | none =>
      have hr := ih.mp hrest
      by_cases ha : a.Name = name
      · simp [ha]
      · simp only [ha, if_false, true_iff]
        intro p hp
        rcases List.mem_cons.mp hp with rfl | hp'
        · exact ha
        · exact hr p hp'

theorem buildRoutes_acc (pm : GoMap ProviderConfig) (rules : List RouteRule)
    (rs : List RouteResultWithKey) :
    buildRoutes pm rules rs = rs ++ buildRoutes pm rules [] := by
  induction rules generalizing rs with
  | nil => simp [buildRoutes]
  | cons r rest ih =>
    unfold buildRoutes
    cases pm.get r.ProviderName with
    | none => exact ih rs
    | some p =>
      simp only
      rw [ih (rs ++ _), ih ([] ++ _)]
      simp

theorem buildRoutes_cons (pm : GoMap ProviderConfig) (r : RouteRule) (rest : List RouteRule) :
    buildRoutes pm (r :: rest) [] =
      match pm.get r.ProviderName with
      | none => buildRoutes pm rest []
      | some p => ⟨r.key, r.result p⟩ :: buildRoutes pm rest [] := by
  conv_lhs => unfold buildRoutes
  cases pm.get r.ProviderName with
  | none => rfl
  | some p =>
    simp only
    rw [buildRoutes_acc]
    rfl

/-- A successful resolution comes from the first retained rule with the key. -/
theorem resolveLoop_ok (pm : GoMap ProviderConfig) (k : RouteKey) (rules : List RouteRule)
    (res : RouteResult) (h : resolveLoop k (buildRoutes pm rules []) = .ok res) :
    ∃ before r after p, rules = before ++ r :: after ∧ r.key = k ∧
      pm.get r.ProviderName = some p ∧ res = r.result p ∧
      ∀ r' ∈ before, r'.key = k → pm.get r'.ProviderName = none := by
  induction rules with
  | nil => simp [buildRoutes, resolveLoop] at h
  | cons r rest ih =>
    rw [buildRoutes_cons] at h
    cases hp : pm.get r.ProviderName with
    | none =>
      rw [hp] at h
      obtain ⟨before, r0, after, p, hl, hk, hg, hres, hb⟩ := ih h
      refine ⟨r :: before, r0, after, p, by rw [hl]; rfl, hk, hg, hres, ?_⟩
      intro r' hr' hk'
      rcases List.mem_cons.mp hr' with rfl | hr''
      · exact hp
      · exact hb r' hr'' hk'
    | some p =>
      rw [hp] at h
      simp only [resolveLoop] at h
      by_cases hk : r.key = k
      · rw [if_pos hk] at h
        exact ⟨[], r, rest, p, rfl, hk, hp, by cases h; rfl, by simp⟩
      · rw [if_neg hk] at h
        obtain ⟨before, r0, after, p0, hl, hk0, hg, hres, hb⟩ := ih h
        refine ⟨r :: before, r0, after, p0, by rw [hl]; rfl, hk0, hg, hres, ?_⟩
        intro r' hr' hk'
        rcases List.mem_cons.mp hr' with rfl | hr''
        · exact absurd hk' hk
        · exact hb r' hr'' hk'

/-- A failed resolution is the "no route" error, and no retained rule has the key. -/
theorem resolveLoop_error (pm : GoMap ProviderConfig) (k : RouteKey) (rules : List RouteRule)
    (e : Error) (h : resolveLoop k (buildRoutes pm rules []) = .error e) :
    e = .noRoute k ∧ ∀ r ∈ rules, r.key = k → pm.get r.ProviderName = none := by
  induction rules with
  | nil =>
    simp only [buildRoutes, resolveLoop] at h
    cases h
    exact ⟨rfl, by simp⟩
  | cons r rest ih =>
    rw [buildRoutes_cons] at h
    cases hp : pm.get r.ProviderName with
    | none =>
      rw [hp] at h
      obtain ⟨he, hall⟩ := ih h
      refine ⟨he, ?_⟩
      intro r' hr' hk'
      rcases List.mem_cons.mp hr' with rfl | hr''
      · exact hp
      · exact hall r' hr'' hk'
    | some p =>
      rw [hp] at h
      simp only [resolveLoop] at h
      by_cases hk : r.key = k
      · rw [if_pos hk] at h
        cases h
      · rw [if_neg hk] at h
        obtain ⟨he, hall⟩ := ih h
        refine ⟨he, ?_⟩
        intro r' hr' hk'
        rcases List.mem_cons.mp hr' with rfl | hr''
        · exact absurd hk' hk
        · exact hall r' hr'' hk'

/-- C10: `ResolveRoute` on the router built from `cfg` succeeds exactly when some rule of
    `cfg.Routes` has the four key fields equal to `k` and names a provider defined in
    `cfg.Providers`.  Its result then comes from the first such rule in configuration
    order (no rule before it has the key and a defined provider) and from the last
    definition of the provider it names (no later definition has that name): the
    provider's name, type and region, and the rule's provider bucket.  Otherwise it
    fails with the "no route" error, and every rule with the key `k` names a provider
    that is not defined. -/
theorem ResolveRoute_exact_match (cfg : ObjectStorageConfig) (k : RouteKey) :
    ((∃ res, (NewStaticRouter cfg).ResolveRoute k = .ok res) ↔
      ∃ r ∈ cfg.Routes, r.key = k ∧ ∃ p ∈ cfg.Providers, p.Name = r.ProviderName) ∧
    (∀ res, (NewStaticRouter cfg).ResolveRoute k = .ok res →
      ∃ before r after pbefore p pafter,
        cfg.Routes = before ++ r :: after ∧ r.key = k ∧
        (∀ r' ∈ before, ¬(r'.key = k ∧ ∃ p' ∈ cfg.Providers, p'.Name = r'.ProviderName)) ∧
        cfg.Providers = pbefore ++ p :: pafter ∧ p.Name = r.ProviderName ∧
        (∀ q ∈ pafter, q.Name ≠ r.ProviderName) ∧
        res = { ProviderName := p.Name, ProviderType := p.Type_, ProviderRegion := p.Region,
                ProviderBucket := r.ProviderBucket }) ∧
    (∀ e, (NewStaticRouter cfg).ResolveRoute k = .error e →
      e = .noRoute k ∧
      ∀ r ∈ cfg.Routes, r.key = k → ∀ p ∈ cfg.Providers, p.Name ≠ r.ProviderName) := by
  have hok : ∀ res, (NewStaticRouter cfg).ResolveRoute k = .ok res →
      ∃ before r after pbefore p pafter,
        cfg.Routes = before ++ r :: after ∧ r.key = k ∧
        (∀ r' ∈ before, ¬(r'.key = k ∧ ∃ p' ∈ cfg.Providers, p'.Name = r'.ProviderName)) ∧
        cfg.Providers = pbefore ++ p :: pafter ∧ p.Name = r.ProviderName ∧
        (∀ q ∈ pafter, q.Name ≠ r.ProviderName) ∧
        res = { ProviderName := p.Name, ProviderType := p.Type_, ProviderRegion := p.Region,
                ProviderBucket := r.ProviderBucket } := by
    intro res h
    obtain ⟨before, r, after, p, hl, hk, hg, hres, hb⟩ :=
      resolveLoop_ok (providerMap cfg.Providers) k cfg.Routes res h
    rw [providerMap_get] at hg
    obtain ⟨hn, l1, l2, hps, hq⟩ := lastProvider_some cfg.Providers r.ProviderName p hg
    refine ⟨before, r, after, l1, p, l2, hl, hk, ?_, hps, hn, hq, hres⟩
    rintro r' hr' ⟨hk', p', hp', hn'⟩
    have hnone := hb r' hr' hk'
    rw [providerMap_get] at hnone
    exact (lastProvider_none cfg.Providers r'.ProviderName).mp hnone p' hp' hn'
  have herr : ∀ e, (NewStaticRouter cfg).ResolveRoute k = .error e →
      e = .noRoute k ∧
      ∀ r ∈ cfg.Routes, r.key = k → ∀ p ∈ cfg.Providers, p.Name ≠ r.ProviderName := by
    intro e h
    obtain ⟨he, hall⟩ := resolveLoop_error (providerMap cfg.Providers) k cfg.Routes e h
    refine ⟨he, fun r hr hk => ?_⟩
    have hnone := hall r hr hk
    rw [providerMap_get] at hnone
    exact (lastProvider_none cfg.Providers r.ProviderName).mp hnone
  refine ⟨⟨?_, ?_⟩, hok, herr⟩
  · rintro ⟨res, h⟩
    obtain ⟨before, r, after, pbefore, p, pafter, hl, hk, -, hps, hn, -, -⟩ := hok res h
    exact ⟨r, by rw [hl]; simp, hk, p, by rw [hps]; simp, hn⟩
  · rintro ⟨r, hr, hk, p, hp, hn⟩
    cases h : (NewStaticRouter cfg).ResolveRoute k with
    | ok res => exact ⟨res, rfl⟩
    | error e => exact absurd hn ((herr e h).2 r hr hk p hp)

/-- Witness of C10 on a configuration with an unknown provider and a provider defined
    twice: the rule naming the unknown provider is skipped, the first of the two rules
    that remain decides, and the later definition of `p1` supplies type and region. -/
theorem ResolveRoute_exact_match_witness :
    (NewStaticRouter shadowConfig).ResolveRoute ⟨"prod", "us", "assets", "HOT"⟩
      = .ok ⟨"p1", "GCP_GCS", "eu-west-1", "b1"⟩ ∧
    (NewStaticRouter shadowConfig).ResolveRoute ⟨"prod", "us", "assets", "COLD"⟩
      = .error (.noRoute ⟨"prod", "us", "assets", "COLD"⟩) ∧
    ∃ res, (NewStaticRouter shadowConfig).ResolveRoute ⟨"prod", "us", "assets", "HOT"⟩
      = .ok res :=
  ⟨by decide, by decide,
   (ResolveRoute_exact_match shadowConfig ⟨"prod", "us", "assets", "HOT"⟩).1.mpr
     ⟨⟨"prod", "us", "assets", "HOT", "p1", "b1"⟩, by decide, by decide,
      p1, by decide, by decide⟩⟩

/-! ## The defects behind C1 and C6, for every configuration -/

section Defects
variable {κ β : Type}

theorem stamp_fields (now : Time) (o : ObjectRecord) :
    (stamp now o).Env = o.Env ∧ (stamp now o).LogicalRegion = o.LogicalRegion ∧
    (stamp now o).Bucket = o.Bucket ∧ (stamp now o).ObjectKey = o.ObjectKey ∧
    (stamp now o).ProviderType = o.ProviderType ∧
    (stamp now o).ProviderBucket = o.ProviderBucket ∧
    (stamp now o).UpdatedAt = now ∧
    (o.Version = 0 → (stamp now o).Version = 1) ∧
    (o.Status = "ACTIVE" → (stamp now o).Status = "ACTIVE") := by
  unfold stamp
  simp only
  refine ⟨?_, ?_, ?_, ?_, ?_, ?_, ?_, ?_, ?_⟩ <;> (repeat' split) <;> simp_all

theorem PutObject_then_GetObject (r : InMemoryRepository) (now : Time) (o : ObjectRecord)
    (ho : o.Status = "ACTIVE") :
    (r.PutObject now (some o)).1 = none ∧
    (r.PutObject now (some o)).2.GetObject o.Env o.LogicalRegion o.Bucket o.ObjectKey
      = .ok (stamp now o) := by
  obtain ⟨h1, h2, h3, h4, -, -, -, -, h9⟩ := stamp_fields now o
  refine ⟨rfl, ?_⟩
  simp only [InMemoryRepository.PutObject, InMemoryRepository.GetObject, h1, h2, h3, h4,
    GoMap.get_set, if_true]
  rw [if_neg]
  rw [h9 ho]
  decide

/-- After a successful put through the in-memory repository, the repository answers the
    address with an ACTIVE record whose `Version` is 1, whatever it held before. -/
theorem Put_stores_version_one (cache : RedisCache κ) (now : Time) (router : ObjectRoute)
    (registry : ProviderRegistry β) (w : World κ InMemoryRepository β) (req : PutRequest)
    (resp : PutResponse)
    (h : ((NewService cache (InMemoryRepository.repository now) router registry).Put w
            req).result = .ok resp) :
    ∃ o route,
      router.ResolveRoute req.defaulted.routeKey = .ok route ∧
      ((NewService cache (InMemoryRepository.repository now) router registry).Put w
          req).world.metaRepo.GetObject req.Env req.LogicalRegion req.Bucket req.Key = .ok o ∧
      o.Version = 1 ∧ o.Status = "ACTIVE" ∧ o.UpdatedAt = now ∧
      o.ProviderType = route.ProviderType ∧ o.ProviderBucket = route.ProviderBucket := by
  have hb : (NewService cache (InMemoryRepository.repository now) router registry).isSmall req →
      req.Body.err = none := by
    intro hs
    cases hbe : req.Body.err with
    | none => rfl
    | some e => rw [Put_body_error _ w req e hs hbe] at h; cases h
  rw [Put_eq_tail _ w req hb] at h ⊢
  obtain ⟨route, backend, etag, st, m, hr, hg, hp, hm, -⟩ := putTail_ok_inv _ _ _ _ _ _ _ _ h
  rw [putTail_success _ _ _ _ _ _ _ route backend etag st m hr hg hp hm]
  obtain ⟨-, -, -, -, h5, h6, h7, h8, h9⟩ := stamp_fields now
    (req.defaulted.record route
      ((NewService cache (InMemoryRepository.repository now) router registry).putSize req)
      ((NewService cache (InMemoryRepository.repository now) router registry).putMode req) etag)
  have hget := (PutObject_then_GetObject w.metaRepo now
    (req.defaulted.record route
      ((NewService cache (InMemoryRepository.repository now) router registry).putSize req)
      ((NewService cache (InMemoryRepository.repository now) router registry).putMode req) etag)
    rfl).2
  have hm' : m = (w.metaRepo.PutObject now (some (req.defaulted.record route
      ((NewService cache (InMemoryRepository.repository now) router registry).putSize req)
      ((NewService cache (InMemoryRepository.repository now) router registry).putMode req)
      etag))).2 := by
    have := congrArg Prod.snd hm
    simpa [NewService, InMemoryRepository.repository] using this.symm
  refine ⟨_, route, hr, ?_, h8 rfl, h9 rfl, h7, h5, h6⟩
  simp only [hm']
  simpa [PutRequest.record] using hget

theorem getMiss_no_backend {μ : Type} (s : Service κ μ β) (w : World κ μ β) (ck : String)
    (c1 : List Call) (req : GetRequest) (o : ObjectRecord) (m : μ)
    (hm : s.metaRepo.GetObject w.metaRepo req.Env req.LogicalRegion req.Bucket req.Key
            = (.ok o, m))
    (ht : s.providers.Get o.ProviderType = none)
    (hb : s.providers.Get o.ProviderBucket = none) :
    s.getMiss w ck c1 req =
      ⟨.error (.noBackend o.ProviderType), { w with metaRepo := m },
       c1 ++ [.metaGet req.Env req.LogicalRegion req.Bucket req.Key] ++
         [.registryGet o.ProviderType, .registryGet o.ProviderBucket]⟩ := by
  simp only [Service.getMiss, hm, ht, hb]

/-- The defect behind C1, for every configuration over the in-memory repository: after a
    successful put, a get of the same address that misses the cache fails with
    "no backend" whenever the registry has no entry under the routed provider's type
    and none under the routed physical bucket, although the put found the backend under
    the provider's name. -/
theorem Get_after_put_no_backend (cache : RedisCache κ) (now : Time) (router : ObjectRoute)
    (registry : ProviderRegistry β) (w : World κ InMemoryRepository β) (req : PutRequest)
    (resp : PutResponse) (route : RouteResult)
    (h : ((NewService cache (InMemoryRepository.repository now) router registry).Put w
            req).result = .ok resp)
    (hroute : router.ResolveRoute req.defaulted.routeKey = .ok route)
    (hmiss : ∀ data,
      (cache.GetObject
        ((NewService cache (InMemoryRepository.repository now) router registry).Put w
          req).world.cache (cacheKey req.Env req.Bucket req.Key)).1 = .ok data → data = [])
    (ht : registry.Get route.ProviderType = none)
    (hb : registry.Get route.ProviderBucket = none) :
    (registry.Get route.ProviderName).isSome = true ∧
    ((NewService cache (InMemoryRepository.repository now) router registry).Get
        ((NewService cache (InMemoryRepository.repository now) router registry).Put w
          req).world ⟨req.Env, req.LogicalRegion, req.Bucket, req.Key⟩).result
      = .error (.noBackend route.ProviderType) := by
  obtain ⟨o, route', hr', hget, -, -, -, hty, hbu⟩ :=
    Put_stores_version_one cache now router registry w req resp h
  rw [hroute] at hr'
  cases hr'
  constructor
  · have hb' : (NewService cache (InMemoryRepository.repository now) router registry).isSmall
        req → req.Body.err = none := by
      intro hs
      cases hbe : req.Body.err with
      | none => rfl
      | some e => rw [Put_body_error _ w req e hs hbe] at h; cases h
    rw [Put_eq_tail _ w req hb'] at h
    obtain ⟨route', backend, -, -, -, hr, hg, -, -, -⟩ := putTail_ok_inv _ _ _ _ _ _ _ _ h
    have hr2 : router.ResolveRoute req.defaulted.routeKey = .ok route' := hr
    rw [hroute] at hr2
    cases hr2
    have hg2 : registry.Get route.ProviderName = some backend := hg
    rw [hg2]
    rfl
  · rw [Get_miss _ _ _ hmiss]
    rw [getMiss_no_backend _ _ _ _ _ o _
      (show (_, _) = (_, _) from congrArg (fun x => (x, _)) hget)
      (by rw [hty]; exact ht) (by rw [hbu]; exact hb)]
    simp only [hty]

end Defects

/-! ## C11: `MarkDeleted` of the in-memory repository -/

theorem GoMap.get_set_self {V : Type} (m : GoMap V) (k : String) (v : V) :
    (m.set k v).get k = some v := by
  rw [GoMap.get_set, if_pos rfl]

theorem GoMap.get_set_of_ne {V : Type} (m : GoMap V) (k j : String) (v : V) (h : k ≠ j) :
    (m.set k v).get j = m.get j := by
  rw [GoMap.get_set, if_neg h]

/-- What `MarkDeleted` does, for every state of the in-memory repository: it answers
    `ErrNotFound` exactly when the map has no entry under the key of the address, and then
    leaves the repository as it is; when there is an entry, whatever its status, it
    answers ok, the entry keeps every field but `Status`, now `DELETED`, and `UpdatedAt`,
    now the current time; the entries under all other keys are unchanged; and a
    `GetObject` of the address that follows answers `ErrNotFound`. -/
theorem MarkDeleted_behaviour (r : InMemoryRepository) (now : Time)
    (env region bucket key : String) :
    ((r.MarkDeleted now env region bucket key).1 = some .ErrNotFound ↔
      r.data.get (makeKey env region bucket key) = none) ∧
    (r.data.get (makeKey env region bucket key) = none →
      r.MarkDeleted now env region bucket key = (some .ErrNotFound, r)) ∧
    (∀ o, r.data.get (makeKey env region bucket key) = some o →
      (r.MarkDeleted now env region bucket key).1 = none ∧
      (r.MarkDeleted now env region bucket key).2.data.get (makeKey env region bucket key)
        = some { o with Status := "DELETED", UpdatedAt := now } ∧
      (∀ j, j ≠ makeKey env region bucket key →
        (r.MarkDeleted now env region bucket key).2.data.get j = r.data.get j) ∧
      (r.MarkDeleted now env region bucket key).2.GetObject env region bucket key
        = .error .ErrNotFound) := by
  cases hget : r.data.get (makeKey env region bucket key) with
  | none =>
    have hmd : r.MarkDeleted now env region bucket key = (some .ErrNotFound, r) := by
      simp only [InMemoryRepository.MarkDeleted, hget]
    refine ⟨?_, (fun _ => hmd), (fun o ho => by cases ho)⟩
    rw [hmd]
    simp
  | some o =>
    have hmd : r.MarkDeleted now env region bucket key
        = (none, ⟨r.data.set (makeKey env region bucket key)
            { o with Status := "DELETED", UpdatedAt := now }⟩) := by
      simp only [InMemoryRepository.MarkDeleted, hget]
    rw [hmd]
    refine ⟨by simp, (fun h => by cases h), (fun o' ho' => ?_)⟩
    cases ho'
    refine ⟨rfl, GoMap.get_set_self _ _ _, (fun j hj => GoMap.get_set_of_ne _ _ _ _ hj.symm), ?_⟩
    simp only [InMemoryRepository.GetObject, GoMap.get_set_self, if_true]

/-- C11, evaluated on a repository whose only row, for `prod/us/assets/a.png`, is already
    `DELETED`: `GetObject` answers `ErrNotFound`, so the address has no ACTIVE record; yet
    `MarkDeleted` answers ok instead of `ErrNotFound`, and the repository is not left
    unchanged: the row gets a new `UpdatedAt`. -/
theorem MarkDeleted_twice_succeeds :
    deletedRepo.GetObject "prod" "us" "assets" "a.png" = .error .ErrNotFound ∧
    (deletedRepo.MarkDeleted 1700000090 "prod" "us" "assets" "a.png").1 = none ∧
    (deletedRepo.MarkDeleted 1700000090 "prod" "us" "assets" "a.png").2 ≠ deletedRepo ∧
    (deletedRepo.MarkDeleted 1700000090 "prod" "us" "assets" "a.png").2
      = ⟨[("prod|us|assets|a.png", { deletedRecord with UpdatedAt := 1700000090 })]⟩ := by
  refine ⟨by decide, by decide, by decide, by decide⟩

/-! ## C12, C13: `Get` after a cache miss, from the registry lookup on -/

section Read
variable {κ μ β : Type}

theorem getMiss_eq_read (s : Service κ μ β) (w : World κ μ β) (ck : String) (c1 : List Call)
    (req : GetRequest) (o : ObjectRecord) (m : μ) (name : String) (backend : ObjectStorage β)
    (hm : s.metaRepo.GetObject w.metaRepo req.Env req.LogicalRegion req.Bucket req.Key
            = (.ok o, m))
    (hf : s.findBackend o = some (name, backend)) :
    s.getMiss w ck c1 req =
      s.getRead { w with metaRepo := m } ck
        (c1 ++ [.metaGet req.Env req.LogicalRegion req.Bucket req.Key] ++ s.findBackendCalls o)
        name backend o.location := by
  unfold Service.findBackend at hf
  unfold Service.findBackendCalls
  simp only [Service.getMiss, Service.getRead, ObjectRecord.location, hm]
  cases ht : s.providers.Get o.ProviderType with
  | some b =>
    rw [ht] at hf
    cases hf
    simp only [List.append_assoc]
    repeat' split
    all_goals simp_all
  | none =>
    rw [ht] at hf
    cases hb : s.providers.Get o.ProviderBucket with
    | none => rw [hb] at hf; cases hf
    | some b =>
      rw [hb] at hf
      cases hf
      simp only [List.append_assoc]
      repeat' split
      all_goals simp_all

theorem getRead_error (s : Service κ μ β) (w : World κ μ β) (ck : String) (pre : List Call)
    (name : String) (backend : ObjectStorage β) (loc : ObjectLocation) (e : Error) (st : β)
    (hr : backend.GetObject w.store loc = (.error e, st)) :
    s.getRead w ck pre name backend loc =
      ⟨.error e, { w with store := st }, pre ++ [.backendGet name loc]⟩ := by
  simp only [Service.getRead, hr]

theorem getRead_small (s : Service κ μ β) (w : World κ μ β) (ck : String) (pre : List Call)
    (name : String) (backend : ObjectStorage β) (loc : ObjectLocation) (body : Body)
    (size : Int) (contentType : String) (st : β)
    (hr : backend.GetObject w.store loc = (.ok (body, size, contentType), st))
    (hs : 0 < size ∧ size ≤ s.smallFileThreshold) (hb : body.err = none) :
    s.getRead w ck pre name backend loc =
      ⟨.ok { Size := size, ContentType := contentType, Body := Body.ofBytes body.data },
       { w with store := st, cache := (s.cache.SetObject w.cache ck body.data s.cacheTTL).2 },
       pre ++ [.backendGet name loc, .cacheSet ck body.data s.cacheTTL]⟩ := by
  simp only [Service.getRead, hr, hs, hb, and_self, if_true]

theorem getRead_small_body_error (s : Service κ μ β) (w : World κ μ β) (ck : String)
    (pre : List Call) (name : String) (backend : ObjectStorage β) (loc : ObjectLocation)
    (body : Body) (size : Int) (contentType : String) (st : β) (e : Error)
    (hr : backend.GetObject w.store loc = (.ok (body, size, contentType), st))
    (hs : 0 < size ∧ size ≤ s.smallFileThreshold) (hb : body.err = some e) :
    s.getRead w ck pre name backend loc =
      ⟨.error e, { w with store := st }, pre ++ [.backendGet name loc]⟩ := by
  simp only [Service.getRead, hr, hs, hb, and_self, if_true]

theorem getRead_large (s : Service κ μ β) (w : World κ μ β) (ck : String) (pre : List Call)
    (name : String) (backend : ObjectStorage β) (loc : ObjectLocation) (body : Body)
    (size : Int) (contentType : String) (st : β)
    (hr : backend.GetObject w.store loc = (.ok (body, size, contentType), st))
    (hs : ¬(0 < size ∧ size ≤ s.smallFileThreshold)) :
    s.getRead w ck pre name backend loc =
      ⟨.ok { Size := size, ContentType := contentType, Body := body },
       { w with store := st }, pre ++ [.backendGet name loc]⟩ := by
  simp only [Service.getRead, hr, hs, if_false]

/-- The only backend call of `getRead` is the read of `loc` on the entry `name`. -/
theorem getRead_backend_calls (s : Service κ μ β) (w : World κ μ β) (ck : String)
    (pre : List Call) (name : String) (backend : ObjectStorage β) (loc : ObjectLocation) :
    (s.getRead w ck pre name backend loc).calls.filter Call.isBackend
      = pre.filter Call.isBackend ++ [.backendGet name loc] := by
  unfold Service.getRead
  repeat' split
  all_goals simp [List.filter_cons, Call.isBackend]

/-- C12: on a cache miss for which the metadata store answers a record `o`, `Get` looks
    the registry up under `o.ProviderType` first.  When that name is registered it reads
    `o`'s stored location from that entry, whether or not `o.ProviderBucket` is registered
    too, and makes no second lookup; otherwise, when `o.ProviderBucket` is registered, it
    reads from that entry; otherwise it fails with "no backend for provider" (naming the
    provider type) after the two lookups, without any backend call.  In the first two
    cases the read of the stored location on the chosen entry is the only backend call,
    and an error of that read is the error of `Get`. -/
theorem Get_backend_lookup_order (s : Service κ μ β) (w : World κ μ β) (req : GetRequest)
    (o : ObjectRecord) (m : μ)
    (hmiss : ∀ data, (s.cache.GetObject w.cache (cacheKey req.Env req.Bucket req.Key)).1
              = .ok data → data = [])
    (hm : s.metaRepo.GetObject w.metaRepo req.Env req.LogicalRegion req.Bucket req.Key
            = (.ok o, m)) :
    (∀ b, s.providers.Get o.ProviderType = some b →
      s.Get w req =
        s.getRead
          ⟨(s.cache.GetObject w.cache (cacheKey req.Env req.Bucket req.Key)).2, m, w.store⟩
          (cacheKey req.Env req.Bucket req.Key)
          [.cacheGet (cacheKey req.Env req.Bucket req.Key),
           .metaGet req.Env req.LogicalRegion req.Bucket req.Key,
           .registryGet o.ProviderType]
          o.ProviderType b o.location ∧
      (s.Get w req).calls.filter Call.isBackend = [.backendGet o.ProviderType o.location] ∧
      ∀ e st, b.GetObject w.store o.location = (.error e, st) →
        (s.Get w req).result = .error e) ∧
    (s.providers.Get o.ProviderType = none →
      ∀ b, s.providers.Get o.ProviderBucket = some b →
        s.Get w req =
          s.getRead
            ⟨(s.cache.GetObject w.cache (cacheKey req.Env req.Bucket req.Key)).2, m, w.store⟩
            (cacheKey req.Env req.Bucket req.Key)
            [.cacheGet (cacheKey req.Env req.Bucket req.Key),
             .metaGet req.Env req.LogicalRegion req.Bucket req.Key,
             .registryGet o.ProviderType, .registryGet o.ProviderBucket]
            o.ProviderBucket b o.location ∧
        (s.Get w req).calls.filter Call.isBackend
          = [.backendGet o.ProviderBucket o.location] ∧
        ∀ e st, b.GetObject w.store o.location = (.error e, st) →
          (s.Get w req).result = .error e) ∧
    (s.providers.Get o.ProviderType = none → s.providers.Get o.ProviderBucket = none →
      s.Get w req =
        ⟨.error (.noBackend o.ProviderType),
         ⟨(s.cache.GetObject w.cache (cacheKey req.Env req.Bucket req.Key)).2, m, w.store⟩,
         [.cacheGet (cacheKey req.Env req.Bucket req.Key),
          .metaGet req.Env req.LogicalRegion req.Bucket req.Key,
          .registryGet o.ProviderType, .registryGet o.ProviderBucket]⟩ ∧
      (s.Get w req).calls.filter Call.isBackend = []) := by
  rw [Get_miss s w req hmiss]
  have hm' : s.metaRepo.GetObject
      (World.mk (β := β) (s.cache.GetObject w.cache (cacheKey req.Env req.Bucket req.Key)).2
        w.metaRepo w.store).metaRepo req.Env req.LogicalRegion req.Bucket req.Key
      = (.ok o, m) := hm
  refine ⟨fun b ht => ?_, fun ht b hb => ?_, fun ht hb => ?_⟩
  · have hf : s.findBackend o = some (o.ProviderType, b) := by
      simp only [Service.findBackend, ht]
    have hc : s.findBackendCalls o = [.registryGet o.ProviderType] := by
      simp only [Service.findBackendCalls, ht]
    rw [getMiss_eq_read s ⟨_, w.metaRepo, w.store⟩ _ _ req o m _ b hm' hf, hc]
    refine ⟨rfl, ?_, fun e st hr => ?_⟩
    · rw [getRead_backend_calls]
      simp [Call.isBackend]
    · rw [getRead_error s ⟨_, m, w.store⟩ _ _ _ b _ e st hr]
  · have hf : s.findBackend o = some (o.ProviderBucket, b) := by
      simp only [Service.findBackend, ht, hb]
    have hc : s.findBackendCalls o
        = [.registryGet o.ProviderType, .registryGet o.ProviderBucket] := by
      simp only [Service.findBackendCalls, ht]
    rw [getMiss_eq_read s ⟨_, w.metaRepo, w.store⟩ _ _ req o m _ b hm' hf, hc]
    refine ⟨rfl, ?_, fun e st hr => ?_⟩
    · rw [getRead_backend_calls]
      simp [Call.isBackend]
    · rw [getRead_error s ⟨_, m, w.store⟩ _ _ _ b _ e st hr]
  · rw [getMiss_no_backend s ⟨_, w.metaRepo, w.store⟩ _ _ req o m hm' ht hb]
    exact ⟨rfl, rfl⟩

/-- Witness of C12: the registry has an entry under the provider type `AWS_S3` of the
    record and another under its physical bucket `phys-assets`; the get reads from the
    entry under `AWS_S3`. -/
theorem Get_backend_lookup_order_witness :
    (typedRegistry.Get "AWS_S3").isSome = true ∧
    (typedRegistry.Get "phys-assets").isSome = true ∧
    (typedService.Get activeWorld demoAddress).calls.filter Call.isBackend
      = [.backendGet "AWS_S3"
          ⟨"AWS_S3", "us-east-1", "phys-assets", "prod/us/assets/a.png"⟩] :=
  ⟨by decide, by decide,
   ((Get_backend_lookup_order typedService activeWorld demoAddress activeRecord
      activeWorld.metaRepo (fun _ h => by cases h) rfl).1 (memBackend "by-type") rfl).2.1⟩

theorem Get_miss_found (s : Service κ μ β) (w : World κ μ β) (req : GetRequest)
    (o : ObjectRecord) (m : μ) (name : String) (b : ObjectStorage β)
    (hmiss : ∀ data, (s.cache.GetObject w.cache (cacheKey req.Env req.Bucket req.Key)).1
              = .ok data → data = [])
    (hm : s.metaRepo.GetObject w.metaRepo req.Env req.LogicalRegion req.Bucket req.Key
            = (.ok o, m))
    (hf : s.findBackend o = some (name, b)) :
    s.Get w req =
      s.getRead
        ⟨(s.cache.GetObject w.cache (cacheKey req.Env req.Bucket req.Key)).2, m, w.store⟩
        (cacheKey req.Env req.Bucket req.Key)
        ([.cacheGet (cacheKey req.Env req.Bucket req.Key)] ++
          [.metaGet req.Env req.LogicalRegion req.Bucket req.Key] ++ s.findBackendCalls o)
        name b o.location := by
  have hm' : s.metaRepo.GetObject
      (World.mk (β := β) (s.cache.GetObject w.cache (cacheKey req.Env req.Bucket req.Key)).2
        w.metaRepo w.store).metaRepo req.Env req.LogicalRegion req.Bucket req.Key
      = (.ok o, m) := hm
  rw [Get_miss s w req hmiss, getMiss_eq_read s ⟨_, w.metaRepo, w.store⟩ _ _ req o m _ b hm' hf]

theorem findBackendCalls_no_cacheSet (s : Service κ μ β) (o : ObjectRecord) :
    (s.findBackendCalls o).filter Call.isCacheSet = [] := by
  unfold Service.findBackendCalls
  split <;> simp [Call.isCacheSet]

/-- C13: on a cache miss, with the threshold of `NewService`, when the backend settled on
    answers the read of the record's stored location with a stream `body`, the size `sz`
    and the content type `ct`, and the stream can be read to its end whenever it has to
    be drained (`0 < sz ≤ 1048576`): `Get` succeeds with `Size = sz`, `ContentType = ct`
    and a body that yields the bytes of `body`.  When `0 < sz ≤ 1048576` its only cache
    write is that of those bytes under the cache key of the address, whose effect is the
    final cache state; for any other `sz` it makes no cache write and the cache state is
    the one left by the lookup.  The result does not depend on what the cache write
    does: it is the same with any other `SetObject`. -/
theorem Get_refill (cache : RedisCache κ) (repo : Repository μ) (router : ObjectRoute)
    (registry : ProviderRegistry β) (w : World κ μ β) (req : GetRequest) (o : ObjectRecord)
    (m : μ) (name : String) (b : ObjectStorage β) (body : Body) (sz : Int) (ct : String)
    (st : β)
    (hmiss : ∀ data, (cache.GetObject w.cache (cacheKey req.Env req.Bucket req.Key)).1
              = .ok data → data = [])
    (hm : repo.GetObject w.metaRepo req.Env req.LogicalRegion req.Bucket req.Key = (.ok o, m))
    (hf : (NewService cache repo router registry).findBackend o = some (name, b))
    (hread : b.GetObject w.store o.location = (.ok (body, sz, ct), st))
    (hbody : 0 < sz ∧ sz ≤ 1048576 → body.err = none) :
    (∃ resp, ((NewService cache repo router registry).Get w req).result = .ok resp ∧
      resp.Size = sz ∧ resp.ContentType = ct ∧ resp.Body.data = body.data) ∧
    (0 < sz ∧ sz ≤ 1048576 →
      ((NewService cache repo router registry).Get w req).result
        = .ok { Size := sz, ContentType := ct, Body := Body.ofBytes body.data } ∧
      ((NewService cache repo router registry).Get w req).calls.filter Call.isCacheSet
        = [.cacheSet (cacheKey req.Env req.Bucket req.Key) body.data defaultCacheTTL] ∧
      ((NewService cache repo router registry).Get w req).world.cache
        = (cache.SetObject (cache.GetObject w.cache (cacheKey req.Env req.Bucket req.Key)).2
            (cacheKey req.Env req.Bucket req.Key) body.data defaultCacheTTL).2) ∧
    (¬(0 < sz ∧ sz ≤ 1048576) →
      ((NewService cache repo router registry).Get w req).result
        = .ok { Size := sz, ContentType := ct, Body := body } ∧
      ((NewService cache repo router registry).Get w req).calls.filter Call.isCacheSet = [] ∧
      ((NewService cache repo router registry).Get w req).world.cache
        = (cache.GetObject w.cache (cacheKey req.Env req.Bucket req.Key)).2) ∧
    (∀ setObject : κ → String → Bytes → Nat → Option Error × κ,
      ((NewService { cache with SetObject := setObject } repo router registry).Get w req).result
        = ((NewService cache repo router registry).Get w req).result) := by
  have hthr : (NewService cache repo router registry).smallFileThreshold = 1048576 := by
    simp [NewService]
  have hpre : ∀ s' : Service κ μ β,
      (([.cacheGet (cacheKey req.Env req.Bucket req.Key)] ++
        [.metaGet req.Env req.LogicalRegion req.Bucket req.Key] ++
        s'.findBackendCalls o : List Call)).filter Call.isCacheSet = [] := by
    intro s'
    rw [List.filter_append, findBackendCalls_no_cacheSet]
    simp [Call.isCacheSet]
  have hget := Get_miss_found (NewService cache repo router registry) w req o m name b
    hmiss hm hf
  have hsmall : 0 < sz ∧ sz ≤ 1048576 →
      ((NewService cache repo router registry).Get w req).result
        = .ok { Size := sz, ContentType := ct, Body := Body.ofBytes body.data } ∧
      ((NewService cache repo router registry).Get w req).calls.filter Call.isCacheSet
        = [.cacheSet (cacheKey req.Env req.Bucket req.Key) body.data defaultCacheTTL] ∧
      ((NewService cache repo router registry).Get w req).world.cache
        = (cache.SetObject (cache.GetObject w.cache (cacheKey req.Env req.Bucket req.Key)).2
            (cacheKey req.Env req.Bucket req.Key) body.data defaultCacheTTL).2 := by
    intro hs
    rw [hget, getRead_small _ ⟨_, m, w.store⟩ _ _ _ b _ body sz ct st hread
      (by rw [hthr]; exact hs) (hbody hs)]
    refine ⟨rfl, ?_, rfl⟩
    simp only [List.filter_append, hpre]
    simp [Call.isCacheSet, Call.isBackend, NewService]
  have hlarge : ¬(0 < sz ∧ sz ≤ 1048576) →
      ((NewService cache repo router registry).Get w req).result
        = .ok { Size := sz, ContentType := ct, Body := body } ∧
      ((NewService cache repo router registry).Get w req).calls.filter Call.isCacheSet = [] ∧
      ((NewService cache repo router registry).Get w req).world.cache
        = (cache.GetObject w.cache (cacheKey req.Env req.Bucket req.Key)).2 := by
    intro hs
    rw [hget, getRead_large _ ⟨_, m, w.store⟩ _ _ _ b _ body sz ct st hread
      (by rw [hthr]; exact hs)]
    refine ⟨rfl, ?_, rfl⟩
    simp only [List.filter_append, hpre]
    simp [Call.isCacheSet]
  refine ⟨?_, hsmall, hlarge, ?_⟩
  · by_cases hs : 0 < sz ∧ sz ≤ 1048576
    · exact ⟨_, (hsmall hs).1, rfl, rfl, rfl⟩
    · exact ⟨_, (hlarge hs).1, rfl, rfl, rfl⟩
  · intro setObject
    have hget' := Get_miss_found (NewService { cache with SetObject := setObject } repo router
      registry) w req o m name b hmiss hm hf
    have hthr' : (NewService { cache with SetObject := setObject } repo router
        registry).smallFileThreshold = 1048576 := by
      simp [NewService]
    rw [hget, hget']
    by_cases hs : 0 < sz ∧ sz ≤ 1048576
    · rw [getRead_small _ ⟨_, m, w.store⟩ _ _ _ b _ body sz ct st hread
        (by rw [hthr']; exact hs) (hbody hs),
        getRead_small _ ⟨_, m, w.store⟩ _ _ _ b _ body sz ct st hread
        (by rw [hthr]; exact hs) (hbody hs)]
    · rw [getRead_large _ ⟨_, m, w.store⟩ _ _ _ b _ body sz ct st hread
        (by rw [hthr']; exact hs),
        getRead_large _ ⟨_, m, w.store⟩ _ _ _ b _ body sz ct st hread
        (by rw [hthr]; exact hs)]

/-- Witness of C13: the record of `prod/us/assets/a.png` is ACTIVE, the cache is empty and
    the backend holds the five bytes of `payload`; the get returns them with size 5 and
    the stored content type, and refills the cache. -/
theorem Get_refill_witness :
    (memBackend "by-type").GetObject activeWorld.store activeRecord.location
      = (.ok (Body.ofBytes payload, 5, "image/png"), activeWorld.store) ∧
    (typedService.Get activeWorld demoAddress).result
      = .ok { Size := 5, ContentType := "image/png", Body := Body.ofBytes payload } ∧
    (typedService.Get activeWorld demoAddress).world.cache
      = [("obj:prod:assets:a.png", payload)] :=
  ⟨by decide,
   ((Get_refill mapCache (InMemoryRepository.repository 1700000000)
      (NewStaticRouter demoConfig).objectRoute typedRegistry activeWorld demoAddress
      activeRecord activeWorld.metaRepo "AWS_S3" (memBackend "by-type") (Body.ofBytes payload)
      5 "image/png" activeWorld.store (fun _ h => by cases h) rfl rfl rfl
      (fun _ => rfl)).2.1 (by decide)).1,
   by decide⟩

end Read

/-! ## C14, C15: the keys of the in-memory repository and of the backend -/

/-- Two lists that agree after their first separator `c` agree before and after it. -/
theorem split_at_separator (c : Char) (a a' r r' : List Char) (ha : c ∉ a) (ha' : c ∉ a')
    (h : a ++ c :: r = a' ++ c :: r') : a = a' ∧ r = r' := by
  induction a generalizing a' with
  | nil =>
    cases a' with
    | nil => exact ⟨rfl, by simpa using h⟩
    | cons y t' =>
      simp only [List.nil_append, List.cons_append, List.cons.injEq] at h
      exact absurd (List.mem_cons.mpr (Or.inl h.1)) ha'
  | cons x t ih =>
    cases a' with
    | nil =>
      simp only [List.nil_append, List.cons_append, List.cons.injEq] at h
      exact absurd (List.mem_cons.mpr (Or.inl h.1.symm)) ha
    | cons y t' =>
      simp only [List.cons_append, List.cons.injEq] at h
      obtain ⟨hxy, ht⟩ := h
      obtain ⟨h1, h2⟩ := ih t' (fun hc => ha (List.mem_cons_of_mem _ hc))
        (fun hc => ha' (List.mem_cons_of_mem _ hc)) ht
      exact ⟨by rw [hxy, h1], h2⟩

/-- A join of four strings with the separator `c` determines the four strings when the
    first three do not contain `c`. -/
theorem join4_injective (c : Char) (e g b k e' g' b' k' : String)
    (he : c ∉ e.toList) (hg : c ∉ g.toList) (hb : c ∉ b.toList)
    (he' : c ∉ e'.toList) (hg' : c ∉ g'.toList) (hb' : c ∉ b'.toList)
    (h : e ++ String.singleton c ++ g ++ String.singleton c ++ b ++ String.singleton c ++ k
       = e' ++ String.singleton c ++ g' ++ String.singleton c ++ b' ++ String.singleton c ++ k') :
    e = e' ∧ g = g' ∧ b = b' ∧ k = k' := by
  have hd := congrArg String.data h
  simp only [String.data_append, String.singleton, List.append_assoc, List.singleton_append,
    String.data_push, List.nil_append] at hd
  obtain ⟨h1, hd⟩ := split_at_separator c _ _ _ _ he he' hd
  obtain ⟨h2, hd⟩ := split_at_separator c _ _ _ _ hg hg' hd
  obtain ⟨h3, h4⟩ := split_at_separator c _ _ _ _ hb hb' hd
  exact ⟨String.ext h1, String.ext h2, String.ext h3, String.ext h4⟩

/-- The key of the in-memory repository determines the address when environment, logical
    region and bucket contain no `|`. -/
theorem makeKey_injective (env region bucket key env' region' bucket' key' : String)
    (he : '|' ∉ env.toList) (hg : '|' ∉ region.toList) (hb : '|' ∉ bucket.toList)
    (he' : '|' ∉ env'.toList) (hg' : '|' ∉ region'.toList) (hb' : '|' ∉ bucket'.toList)
    (h : makeKey env region bucket key = makeKey env' region' bucket' key') :
    env = env' ∧ region = region' ∧ bucket = bucket' ∧ key = key' :=
  join4_injective '|' env region bucket key env' region' bucket' key' he hg hb he' hg' hb' h

/-- C14, evaluated: the addresses `(prod, us, assets|x, y)` and `(prod, us, assets, x|y)`
    have the same key `prod|us|assets|x|y`, so `makeKey` is not injective.  After a
    `PutObject` of the record of the first address, `GetObject` of the second address
    succeeds and returns that record, whose `Bucket` and `ObjectKey` are not the
    arguments of the call; and a `PutObject` for the first address replaces the record
    stored for the second. -/
theorem makeKey_collision :
    makeKey "prod" "us" "assets|x" "y" = makeKey "prod" "us" "assets" "x|y" ∧
    ((NewInMemoryRepository.PutObject 1700000000 (some barRecord)).2.GetObject
        "prod" "us" "assets" "x|y").map (fun o => (o.Env, o.LogicalRegion, o.Bucket, o.ObjectKey))
      = .ok ("prod", "us", "assets|x", "y") ∧
    ((NewInMemoryRepository.PutObject 1700000000 (some plainRecord)).2.GetObject
        "prod" "us" "assets" "x|y").map (fun o => (o.Bucket, o.ObjectKey, o.ETag))
      = .ok ("assets", "x|y", "etag-2") ∧
    ((((NewInMemoryRepository.PutObject 1700000000 (some plainRecord)).2.PutObject 1700000060
        (some barRecord)).2.GetObject
        "prod" "us" "assets" "x|y").map (fun o => (o.Bucket, o.ObjectKey, o.ETag)))
      = .ok ("assets|x", "y", "etag-1") ∧
    ((NewInMemoryRepository.PutObject 1700000000 (some plainRecord)).2.PutObject 1700000060
        (some barRecord)).2.data.length = 1 := by
  refine ⟨by decide, by decide, by decide, by decide, by decide⟩

/-- C15: two requests whose environment, logical region and bucket contain no `/` and
    that have the same physical key have the same environment, logical region, bucket
    and key; the key itself may contain `/`. -/
theorem buildPhysicalKey_injective (r r' : PutRequest)
    (he : '/' ∉ r.Env.toList) (hg : '/' ∉ r.LogicalRegion.toList)
    (hb : '/' ∉ r.Bucket.toList) (he' : '/' ∉ r'.Env.toList)
    (hg' : '/' ∉ r'.LogicalRegion.toList) (hb' : '/' ∉ r'.Bucket.toList)
    (h : buildPhysicalKey r = buildPhysicalKey r') :
    r.Env = r'.Env ∧ r.LogicalRegion = r'.LogicalRegion ∧ r.Bucket = r'.Bucket ∧
      r.Key = r'.Key :=
  join4_injective '/' r.Env r.LogicalRegion r.Bucket r.Key r'.Env r'.LogicalRegion r'.Bucket
    r'.Key he hg hb he' hg' hb' h

/-- Witness of C15: two requests for `prod/us/assets/img/2024/a.png` that differ in size
    and storage class have the same physical key, and the same four address fields. -/
theorem buildPhysicalKey_injective_witness :
    buildPhysicalKey nestedRequest
      = buildPhysicalKey { nestedRequest with Size := 0, StorageClass := "COLD" } ∧
    buildPhysicalKey nestedRequest = "prod/us/assets/img/2024/a.png" ∧
    nestedRequest.Key = ({ nestedRequest with Size := 0, StorageClass := "COLD" } : PutRequest).Key :=
  ⟨by decide, by decide,
   (buildPhysicalKey_injective nestedRequest
      { nestedRequest with Size := 0, StorageClass := "COLD" }
      (by decide) (by decide) (by decide) (by decide) (by decide) (by decide)
      (by decide)).2.2.2⟩

/-- Without the condition of C15 the physical key is not injective: an environment that
    contains `/` collides with a logical region that does. -/
theorem buildPhysicalKey_collision_with_slash :
    buildPhysicalKey { nestedRequest with Env := "a/b", LogicalRegion := "c" }
      = buildPhysicalKey { nestedRequest with Env := "a", LogicalRegion := "b/c" } := by
  decide

/-! ## C5: `Get` for an address without an ACTIVE record -/

/-- C5, evaluated on a gateway with the in-memory metadata store: after the put of
    `payload` to `(prod, us, assets|x, y)`, the store holds one record, ACTIVE, for that
    address, and no record for `(prod, us, assets, x|y)`; the get of
    `(prod, us, assets, x|y)` misses the cache, and instead of failing with `ErrNotFound`
    it succeeds with the bytes of the other object, read from the backend at the other
    object's physical key. -/
theorem Get_returns_record_of_other_address :
    (aliasService.Put emptyWorld barRequest).result = .ok ⟨"etag-1", StoreRedisObject, 5⟩ ∧
    (aliasService.Put emptyWorld barRequest).world.metaRepo.data.map
        (fun e => (e.2.Env, e.2.LogicalRegion, e.2.Bucket, e.2.ObjectKey, e.2.Status))
      = [("prod", "us", "assets|x", "y", "ACTIVE")] ∧
    (aliasService.Put emptyWorld barRequest).world.metaRepo.data.filter
        (fun e => e.2.Env = "prod" ∧ e.2.LogicalRegion = "us" ∧ e.2.Bucket = "assets" ∧
          e.2.ObjectKey = "x|y")
      = [] ∧
    (mapCache.GetObject (aliasService.Put emptyWorld barRequest).world.cache
        (cacheKey "prod" "assets" "x|y")).1 = .error (.other "redis: nil") ∧
    (aliasService.Get (aliasService.Put emptyWorld barRequest).world otherAddress).result
      = .ok { Size := 5, ContentType := "image/png", Body := Body.ofBytes payload } ∧
    (aliasService.Get (aliasService.Put emptyWorld barRequest).world
        otherAddress).calls.filter Call.isBackend
      = [.backendGet "AWS_S3"
          ⟨"AWS_S3", "us-east-1", "phys-assets", "prod/us/assets|x/y"⟩] := by
  refine ⟨by decide, by decide, by decide, by decide, by decide, by decide⟩

/-! ### What holds of C5 when no two addresses share a key -/

theorem GoMap.get_mem {V : Type} (m : GoMap V) (k : String) (v : V) (h : m.get k = some v) :
    (k, v) ∈ m := by
  induction m with
  | nil => cases h
  | cons e t ih =>
    obtain ⟨k', v'⟩ := e
    by_cases hk : k' = k
    · subst hk
      simp only [GoMap.get, if_true, Option.some.injEq] at h
      subst h
      exact List.mem_cons_self _ _
    · simp only [GoMap.get, hk, if_false] at h
      exact List.mem_cons_of_mem _ (ih h)

theorem GoMap.mem_set {V : Type} (m : GoMap V) (k : String) (v : V) (e : String × V)
    (h : e ∈ m.set k v) : e = (k, v) ∨ e ∈ m := by
  induction m with
  | nil =>
    simp only [GoMap.set, List.mem_singleton] at h
    exact Or.inl h
  | cons a t ih =>
    obtain ⟨k', v'⟩ := a
    by_cases hk : k' = k
    · simp only [GoMap.set, hk, if_true, List.mem_cons] at h
      rcases h with h | h
      · exact Or.inl h
      · exact Or.inr (List.mem_cons_of_mem _ h)
    · simp only [GoMap.set, hk, if_false, List.mem_cons] at h
      rcases h with h | h
      · exact Or.inr (h ▸ List.mem_cons_self _ _)
      · rcases ih h with h' | h'
        · exact Or.inl h'
        · exact Or.inr (List.mem_cons_of_mem _ h')

theorem WellKeyed_new : NewInMemoryRepository.WellKeyed := by
  intro e he
  cases he

theorem WellKeyed_PutObject (r : InMemoryRepository) (now : Time) (o : Option ObjectRecord)
    (h : r.WellKeyed) : (r.PutObject now o).2.WellKeyed := by
  cases o with
  | none => exact h
  | some o =>
    intro e he
    rcases GoMap.mem_set _ _ _ e he with rfl | he'
    · rfl
    · exact h e he'

theorem WellKeyed_MarkDeleted (r : InMemoryRepository) (now : Time)
    (env region bucket key : String) (h : r.WellKeyed) :
    (r.MarkDeleted now env region bucket key).2.WellKeyed := by
  cases hget : r.data.get (makeKey env region bucket key) with
  | none =>
    simp only [InMemoryRepository.MarkDeleted, hget]
    exact h
  | some o =>
    simp only [InMemoryRepository.MarkDeleted, hget]
    intro e he
    rcases GoMap.mem_set _ _ _ e he with h' | he'
    · rw [h']
      exact h (makeKey env region bucket key, o) (GoMap.get_mem _ _ _ hget)
    · exact h e he'

/-- In a repository whose entries sit under their own keys and whose records have no
    `|` in environment, logical region and bucket, a `GetObject` for an address without
    `|` in those fields fails with `ErrNotFound` as soon as every stored record with the
    four fields of the address is `DELETED`, in particular when there is none. -/
theorem GetObject_of_no_active_record (r : InMemoryRepository)
    (env region bucket key : String) (hk : r.WellKeyed) (hbar : r.BarFree)
    (he : '|' ∉ env.toList) (hg : '|' ∉ region.toList) (hb : '|' ∉ bucket.toList)
    (hno : ∀ e ∈ r.data, e.2.Env = env → e.2.LogicalRegion = region → e.2.Bucket = bucket →
      e.2.ObjectKey = key → e.2.Status = "DELETED") :
    r.data.get (makeKey env region bucket key) = none ∨
      ∃ o, r.data.get (makeKey env region bucket key) = some o ∧ o.Status = "DELETED" := by
  cases hget : r.data.get (makeKey env region bucket key) with
  | none => exact Or.inl rfl
  | some o =>
    have hmem := GoMap.get_mem _ _ _ hget
    have hkey := hk _ hmem
    obtain ⟨h1, h2, h3⟩ := hbar _ hmem
    obtain ⟨e1, e2, e3, e4⟩ := makeKey_injective env region bucket key o.Env o.LogicalRegion
      o.Bucket o.ObjectKey he hg hb h1 h2 h3 hkey
    exact Or.inr ⟨o, rfl, hno _ hmem e1.symm e2.symm e3.symm e4.symm⟩

/-- The statement of C5 on the logical address, under the condition that no key is
    shared: when the entries of the in-memory store sit under their own keys, neither
    the stored records nor the address have a `|` in environment, logical region or
    bucket, the cache misses, and every stored record with the four fields of the
    address is `DELETED` (in particular when there is none), `Get` fails with
    `ErrNotFound` and makes no backend call. -/
theorem Get_without_active_record_of_address {κ β : Type} (cache : RedisCache κ) (now : Time)
    (router : ObjectRoute) (registry : ProviderRegistry β)
    (w : World κ InMemoryRepository β) (req : GetRequest)
    (hk : w.metaRepo.WellKeyed) (hbar : w.metaRepo.BarFree)
    (he : '|' ∉ req.Env.toList) (hg : '|' ∉ req.LogicalRegion.toList)
    (hb : '|' ∉ req.Bucket.toList)
    (hmiss : ∀ data, (cache.GetObject w.cache (cacheKey req.Env req.Bucket req.Key)).1
              = .ok data → data = [])
    (hno : ∀ e ∈ w.metaRepo.data, e.2.Env = req.Env → e.2.LogicalRegion = req.LogicalRegion →
      e.2.Bucket = req.Bucket → e.2.ObjectKey = req.Key → e.2.Status = "DELETED") :
    ((NewService cache (InMemoryRepository.repository now) router registry).Get w req).result
      = .error .ErrNotFound ∧
    ((NewService cache (InMemoryRepository.repository now) router registry).Get w
        req).calls.filter Call.isBackend = [] :=
  have h := Get_without_active_entry cache now router registry w req hmiss
    (GetObject_of_no_active_record w.metaRepo req.Env req.LogicalRegion req.Bucket req.Key
      hk hbar he hg hb hno)
  ⟨h.1, h.2.2.1⟩

end SmartStore
